import Mathlib

/-!
Shallow embedding of the `promise` Go package (donatorsky/go-promise),
second (mutex-based) iteration of `promise.go`, together with proofs of the
behavioural claims about it.

Modelling choices:
* The heap of `*Promise` objects is a function `Nat → Option PromObj`;
  promise pointers become natural-number indices allocated in order.
* Go `interface{}` values become `Value` (nil, integers, strings, or a
  promise pointer — the cases the library inspects).
* Go `error` values become `Option GoErr` (`none` is the nil error).
* The closures stored in `Promise.handlers` and `Promise.operations` have
  fixed shapes, determined by the bodies built in `registerHandlers`;
  they are represented as first-order data (`Handler`, `Operation`) and an
  interpreter (`exec`) whose cases mirror those closure bodies.
* User-supplied handlers are modelled as pure functions plus an event log
  recording every invocation (tag and argument), which makes invocation
  order and multiplicity observable.
* The `go func(){...}` in `NewPromise` is the only goroutine spawn in the
  package; the model counts spawns in `Sys.spawnCount` and separates the
  allocation (`NewPromiseAlloc`) from the later execution of the spawned
  task (`runNewPromiseTask`).
* The interpreter is fuel-indexed to make the mutual recursion through the
  heap total; all theorems supply enough fuel for the scenarios involved.
-/

namespace GoPromise

/-- Promise states, from the `State` constants of the package. -/
inductive PState
  | pending
  | settling
  | fulfilled
  | rejected
deriving DecidableEq, Repr

/-- Go `error` payloads relevant to the package: the two exported sentinel
errors plus arbitrary user errors (tagged by a number). -/
inductive GoErr
  | resolveNotPending
  | rejectNotPending
  | user (n : Nat)
deriving DecidableEq, Repr

/-- Go `interface{}` values as far as the library inspects them: nil, plain
data (integers, strings), or a `*Promise`. -/
inductive Value
  | null
  | int (n : Int)
  | str (s : String)
  | prom (id : Nat)
deriving DecidableEq, Repr

/-- Whether a value is a `*Promise` (the `result.(*Promise)` type assertion). -/
def Value.isProm : Value → Bool
  | .prom _ => true
  | _ => false

/-- A `FulfillHandler` function value: either a user-supplied pure function
(tagged, so its invocations are observable in the log) or the internal
closure `func(value) { newPromise.Resolve(value); return value, nil }`
created while flattening an inner promise. -/
inductive FulfillFn
  | user (tag : Nat) (f : Value → Value × Option GoErr)
  | resolveInto (target : Nat)

/-- A `RejectHandler` function value: a user-supplied handler (tagged) or the
internal closure `func(reason) { newPromise.Reject(reason) }`. -/
inductive RejectFn
  | user (tag : Nat)
  | rejectInto (target : Nat)

/-- A closure stored in `Promise.handlers`, as built by `registerHandlers`:
it captures the source promise (implicit: handlers run against their owner),
the handler function and the derived promise. -/
inductive Handler
  | onFulfill (f : FulfillFn) (derived : Nat)
  | onReject (r : RejectFn) (derived : Nat)
  | onFinally (tag : Nat) (derived : Nat)

/-- A closure stored in `Promise.operations`: each constructor corresponds to
one of the closure shapes appended by the handler bodies in
`registerHandlers`.  Fields named `src` are read from the source promise at
the time the operation runs (the Go closures capture `p` by reference);
`Value`/`GoErr` payloads are captured by value. -/
inductive Operation
  | rejectWithErrOf (derived src : Nat)
  | adopt (derived inner : Nat)
  | resolveWith (derived : Nat) (v : Value)
  | rejectWith (derived : Nat) (e : Option GoErr)
  | resolveWithValueOf (derived src : Nat)
  | finallySettle (derived src : Nat)

/-- The fields of a `Promise` struct (the mutex carries no data). -/
structure PromObj where
  state : PState
  handlers : List Handler
  operations : List Operation
  value : Value
  err : Option GoErr

/-- A promise struct with only `state` set, other fields zero-valued. -/
def PromObj.mk0 (st : PState) : PromObj :=
  { state := st, handlers := [], operations := [], value := .null, err := none }

/-- Observable events: one per invocation of a user-supplied handler. -/
inductive Event
  | fulfillCalled (tag : Nat) (arg : Value)
  | rejectCalled (tag : Nat) (reason : Option GoErr)
  | finallyCalled (tag : Nat)
deriving DecidableEq, Repr

/-- The global state: the heap of promise objects, the allocation counter,
the log of user-handler invocations, and the number of goroutines spawned. -/
structure Sys where
  heap : Nat → Option PromObj
  nextId : Nat
  log : List Event
  spawnCount : Nat

def Sys.empty : Sys := { heap := fun _ => none, nextId := 0, log := [], spawnCount := 0 }

def Sys.get (s : Sys) (p : Nat) : Option PromObj := s.heap p

def Sys.set (s : Sys) (p : Nat) (o : PromObj) : Sys :=
  { s with heap := fun q => if q = p then some o else s.heap q }

def Sys.alloc (s : Sys) (o : PromObj) : Sys × Nat :=
  ({ s with heap := fun q => if q = s.nextId then some o else s.heap q,
             nextId := s.nextId + 1 },
   s.nextId)

def Sys.modify (s : Sys) (p : Nat) (f : PromObj → PromObj) : Sys :=
  match s.get p with
  | none => s
  | some o => s.set p (f o)

def Sys.appendHandler (s : Sys) (p : Nat) (h : Handler) : Sys :=
  s.modify p fun o => { o with handlers := o.handlers ++ [h] }

def Sys.appendOp (s : Sys) (p : Nat) (op : Operation) : Sys :=
  s.modify p fun o => { o with operations := o.operations ++ [op] }

/-- The bare field write `newPromise.state = StatePending` done at the start
of every operation closure. -/
def Sys.setPendingState (s : Sys) (p : Nat) : Sys :=
  s.modify p fun o => { o with state := .pending }

def Sys.push (s : Sys) (e : Event) : Sys := { s with log := s.log ++ [e] }

/-- The operation recorded for the outcome `(result, err)` of a fulfill
handler: `err != nil` rejects the derived promise with it; a `*Promise`
result is adopted; any other result resolves the derived promise. -/
def resultOp (derived : Nat) (result : Value) (err : Option GoErr) : Operation :=
  match err with
  | some e => .rejectWith derived (some e)
  | none =>
    match result with
    | .prom inner => .adopt derived inner
    | r => .resolveWith derived r

/-- `p.handlers = nil; p.operations = nil` at the end of `notifyObservers`. -/
def clearPhase (p : Nat) (s : Sys) : Sys :=
  s.modify p fun o => { o with handlers := [], operations := [] }

/-- The allocation and list-append part of `registerHandlers` (everything
before the `shouldCallHandlersImmediately` check). -/
def registerAppendPhase (p : Nat) (fh : Option FulfillFn) (rh : Option RejectFn)
    (finh : Option Nat) (s : Sys) : Sys × Nat :=
  let t1 := s.alloc (PromObj.mk0 .settling)
  let s2 := match fh with
    | some f => t1.1.appendHandler p (.onFulfill f t1.2)
    | none => t1.1
  let s3 := match rh with
    | some r => s2.appendHandler p (.onReject r t1.2)
    | none => s2
  let s4 := match finh with
    | some t => s3.appendHandler p (.onFinally t t1.2)
    | none => s3
  (s4, t1.2)

/-- The pending pieces of work of the interpreter.  Each constructor stands
for one block of the Go source: the state-changing part of the public
`Resolve`/`Reject`, `notifyObservers` and its two loops, a single handler or
operation closure body, and the effect of `registerHandlers`. -/
inductive Act
  | resolveA (p : Nat) (v : Value)
  | rejectA (p : Nat) (e : Option GoErr)
  | notifyA (p : Nat)
  | handlerPhaseA (p : Nat)
  | operationPhaseA (p : Nat)
  | handlersA (p : Nat) (hs : List Handler)
  | operationsA (ops : List Operation)
  | handlerA (p : Nat) (h : Handler)
  | operationA (op : Operation)
  | registerA (p : Nat) (fh : Option FulfillFn) (rh : Option RejectFn) (finh : Option Nat)

/-- The state-transforming interpreter, structurally recursive on fuel so
that it reduces definitionally.  Each case mirrors the corresponding body in
the Go source; return values of the public operations (the error of
`Resolve`/`Reject`, the derived promise of `registerHandlers`) are computed
by the non-recursive wrappers below. -/
def exec : Nat → Act → Sys → Sys
  | 0, _, s => s
  | fuel+1, a, s =>
    match a with
    | .resolveA p v =>
      match s.get p with
      | none => s
      | some o =>
        if o.state = .pending then
          exec fuel (.notifyA p) (s.set p { o with state := .fulfilled, value := v })
        else s
    | .rejectA p e =>
      match s.get p with
      | none => s
      | some o =>
        if o.state = .pending then
          exec fuel (.notifyA p) (s.set p { o with state := .rejected, err := e })
        else s
    | .notifyA p =>
      clearPhase p (exec fuel (.operationPhaseA p) (exec fuel (.handlerPhaseA p) s))
    | .handlerPhaseA p =>
      match s.get p with
      | none => s
      | some o => exec fuel (.handlersA p o.handlers) s
    | .operationPhaseA p =>
      match s.get p with
      | none => s
      | some o => exec fuel (.operationsA o.operations) s
    | .handlersA _ [] => s
    | .handlersA p (h :: hs) => exec fuel (.handlersA p hs) (exec fuel (.handlerA p h) s)
    | .operationsA [] => s
    | .operationsA (op :: ops) =>
      exec fuel (.operationsA ops) (exec fuel (.operationA op) s)
    | .handlerA p h =>
      match s.get p with
      | none => s
      | some o =>
        match h with
        | .onFulfill f derived =>
          if o.state = .rejected then
            s.appendOp p (.rejectWithErrOf derived p)
          else
            match f with
            | .user tag g =>
              ((s.push (.fulfillCalled tag o.value)).appendOp p
                (resultOp derived (g o.value).1 (g o.value).2))
            | .resolveInto target =>
              ((exec fuel (.resolveA target o.value) s).appendOp p
                (resultOp derived o.value none))
        | .onReject r derived =>
          if o.state = .fulfilled then
            s.appendOp p (.resolveWithValueOf derived p)
          else
            (match r with
              | .user tag => s.push (.rejectCalled tag o.err)
              | .rejectInto target => exec fuel (.rejectA target o.err) s
            ).appendOp p (.resolveWith derived .null)
        | .onFinally tag derived =>
          (s.push (.finallyCalled tag)).appendOp p (.finallySettle derived p)
    | .operationA op =>
      match op with
      | .rejectWithErrOf derived src =>
        let s1 := s.setPendingState derived
        match s1.get src with
        | none => s1
        | some o => exec fuel (.rejectA derived o.err) s1
      | .resolveWith derived v =>
        exec fuel (.resolveA derived v) (s.setPendingState derived)
      | .rejectWith derived e =>
        exec fuel (.rejectA derived e) (s.setPendingState derived)
      | .resolveWithValueOf derived src =>
        let s1 := s.setPendingState derived
        match s1.get src with
        | none => s1
        | some o => exec fuel (.resolveA derived o.value) s1
      | .finallySettle derived src =>
        let s1 := s.setPendingState derived
        match s1.get src with
        | none => s1
        | some o =>
          if o.state = .fulfilled then exec fuel (.resolveA derived o.value) s1
          else exec fuel (.rejectA derived o.err) s1
      | .adopt derived inner =>
        let s1 := s.setPendingState derived
        let s2 := exec fuel (.registerA inner (some (.resolveInto derived)) none none) s1
        exec fuel (.registerA inner none (some (.rejectInto derived)) none) s2
    | .registerA p fh rh finh =>
      let t := registerAppendPhase p fh rh finh s
      match t.1.get p with
      | none => t.1
      | some o =>
        if o.state ≠ .pending ∧ o.state ≠ .settling then
          exec fuel (.notifyA p) t.1
        else t.1

/-- `Promise.notifyObservers`. -/
def notifyObservers (fuel : Nat) (p : Nat) (s : Sys) : Sys := exec fuel (.notifyA p) s

/-- The first loop of `notifyObservers` (`for _, handler := range p.handlers`). -/
def handlerPhase (fuel : Nat) (p : Nat) (s : Sys) : Sys := exec fuel (.handlerPhaseA p) s

/-- The second loop of `notifyObservers` (`for _, operation := range p.operations`). -/
def operationPhase (fuel : Nat) (p : Nat) (s : Sys) : Sys := exec fuel (.operationPhaseA p) s

/-- Public `Promise.Resolve`: fails with `ErrResolveNotPendingPromise` unless
the state is pending; otherwise stores the value, becomes fulfilled and runs
`notifyObservers`. -/
def Resolve (fuel : Nat) (p : Nat) (v : Value) (s : Sys) : Sys × Option GoErr :=
  match s.get p with
  | none => (s, some .resolveNotPending)
  | some o =>
    if o.state = .pending then (exec fuel (.resolveA p v) s, none)
    else (s, some .resolveNotPending)

/-- Public `Promise.Reject`: fails with `ErrRejectNotPendingPromise` unless
the state is pending; otherwise stores the reason, becomes rejected and runs
`notifyObservers`. -/
def Reject (fuel : Nat) (p : Nat) (e : Option GoErr) (s : Sys) : Sys × Option GoErr :=
  match s.get p with
  | none => (s, some .rejectNotPending)
  | some o =>
    if o.state = .pending then (exec fuel (.rejectA p e) s, none)
    else (s, some .rejectNotPending)

/-- `Promise.registerHandlers`: allocate the derived promise, append the
requested handler closures, then notify immediately when the source is
already terminal.  The derived promise is the one allocated by the append
phase. -/
def registerHandlers (fuel : Nat) (p : Nat) (fh : Option FulfillFn) (rh : Option RejectFn)
    (finh : Option Nat) (s : Sys) : Sys × Nat :=
  (exec fuel (.registerA p fh rh finh) s, (registerAppendPhase p fh rh finh s).2)

/-- `Promise.Then`. -/
def Then (fuel : Nat) (p : Nat) (f : FulfillFn) (s : Sys) : Sys × Nat :=
  registerHandlers fuel p (some f) none none s

/-- `Promise.Catch`. -/
def Catch (fuel : Nat) (p : Nat) (r : RejectFn) (s : Sys) : Sys × Nat :=
  registerHandlers fuel p none (some r) none s

/-- `Promise.Finally`. -/
def Finally (fuel : Nat) (p : Nat) (tag : Nat) (s : Sys) : Sys × Nat :=
  registerHandlers fuel p none none (some tag) s

/-- Package-level `Pending()`. -/
def Pending (s : Sys) : Sys × Nat := s.alloc (PromObj.mk0 .pending)

/-- Package-level `Resolve(value)`. -/
def ResolveCtor (v : Value) (s : Sys) : Sys × Nat :=
  s.alloc { state := .fulfilled, handlers := [], operations := [], value := v, err := none }

/-- Package-level `Reject(reason)`. -/
def RejectCtor (e : Option GoErr) (s : Sys) : Sys × Nat :=
  s.alloc { state := .rejected, handlers := [], operations := [], value := .null, err := e }

/-- The allocation part of `NewPromise(callback)`: the promise starts in the
settling state and a goroutine is spawned to run the callback. -/
def NewPromiseAlloc (s : Sys) : Sys × Nat :=
  let t := s.alloc (PromObj.mk0 .settling)
  ({ t.1 with spawnCount := t.1.spawnCount + 1 }, t.2)

/-- The private `Promise.resolve` capability handed to the callback: only
effective while the state is settling. -/
def resolveInternal (p : Nat) (v : Value) (s : Sys) : Sys :=
  s.modify p fun o =>
    if o.state = .settling then { o with state := .fulfilled, value := v } else o

/-- The private `Promise.reject` capability handed to the callback. -/
def rejectInternal (p : Nat) (e : Option GoErr) (s : Sys) : Sys :=
  s.modify p fun o =>
    if o.state = .settling then { o with state := .rejected, err := e } else o

/-- The calls a `NewPromise` callback makes to its two capabilities. -/
inductive CbCall
  | res (v : Value)
  | rej (e : Option GoErr)

def runCallbackCalls (p : Nat) : List CbCall → Sys → Sys
  | [], s => s
  | .res v :: cs, s => runCallbackCalls p cs (resolveInternal p v s)
  | .rej e :: cs, s => runCallbackCalls p cs (rejectInternal p e s)

/-- The body of the goroutine spawned by `NewPromise`: run the callback
(modelled by its capability calls), then either degrade a still-settling
promise to pending, or notify the observers of the now-terminal promise. -/
def runNewPromiseTask (fuel : Nat) (p : Nat) (calls : List CbCall) (s : Sys) : Sys :=
  let s1 := runCallbackCalls p calls s
  match s1.get p with
  | none => s1
  | some o =>
    if o.state = .settling then s1.modify p (fun o => { o with state := .pending })
    else notifyObservers fuel p s1

/-! ### Basic facts about the state operations -/

theorem Sys.get_set_self (s : Sys) (p : Nat) (o : PromObj) : (s.set p o).get p = some o := by
  simp [Sys.get, Sys.set]

theorem Sys.get_set_ne (s : Sys) (p q : Nat) (o : PromObj) (h : q ≠ p) :
    (s.set p o).get q = s.get q := by
  simp [Sys.get, Sys.set, h]

theorem Sys.log_set (s : Sys) (p : Nat) (o : PromObj) : (s.set p o).log = s.log := rfl

theorem Sys.nextId_set (s : Sys) (p : Nat) (o : PromObj) : (s.set p o).nextId = s.nextId := rfl

theorem Sys.spawnCount_set (s : Sys) (p : Nat) (o : PromObj) :
    (s.set p o).spawnCount = s.spawnCount := rfl

theorem Sys.get_push (s : Sys) (e : Event) (q : Nat) : (s.push e).get q = s.get q := rfl

theorem Sys.log_push (s : Sys) (e : Event) : (s.push e).log = s.log ++ [e] := rfl

theorem Sys.nextId_push (s : Sys) (e : Event) : (s.push e).nextId = s.nextId := rfl

theorem Sys.spawnCount_push (s : Sys) (e : Event) : (s.push e).spawnCount = s.spawnCount := rfl

theorem Sys.modify_eq_set (s : Sys) (p : Nat) (f : PromObj → PromObj) (o : PromObj)
    (h : s.get p = some o) : s.modify p f = s.set p (f o) := by
  simp [Sys.modify, h]

theorem PromObj.clear_eq_self (o : PromObj) (hh : o.handlers = []) (ho : o.operations = []) :
    { o with handlers := [], operations := [] } = o := by
  cases o
  simp_all

/-! ### Promises with no registered continuations settle without side effects -/

theorem exec_handlers_nil (fuel : Nat) (p : Nat) (s : Sys) :
    exec fuel (.handlersA p []) s = s := by
  cases fuel <;> rfl

theorem exec_operations_nil (fuel : Nat) (s : Sys) :
    exec fuel (.operationsA []) s = s := by
  cases fuel <;> rfl

theorem handlerPhase_empty (fuel : Nat) (p : Nat) (s : Sys) (o : PromObj)
    (h : s.get p = some o) (hh : o.handlers = []) : handlerPhase fuel p s = s := by
  cases fuel with
  | zero => rfl
  | succ k => simp [handlerPhase, exec, h, hh, exec_handlers_nil]

theorem operationPhase_empty (fuel : Nat) (p : Nat) (s : Sys) (o : PromObj)
    (h : s.get p = some o) (ho : o.operations = []) : operationPhase fuel p s = s := by
  cases fuel with
  | zero => rfl
  | succ k => simp [operationPhase, exec, h, ho, exec_operations_nil]

theorem clearPhase_empty (p : Nat) (s : Sys) (o : PromObj)
    (h : s.get p = some o) (hh : o.handlers = []) (ho : o.operations = []) :
    clearPhase p s = s.set p o := by
  rw [clearPhase, Sys.modify_eq_set s p _ o h, PromObj.clear_eq_self o hh ho]

/-- `notifyObservers` on a promise with no handlers and no operations leaves
every observable component as it was. -/
theorem notify_empty (fuel : Nat) (p : Nat) (s : Sys) (o : PromObj)
    (h : s.get p = some o) (hh : o.handlers = []) (ho : o.operations = []) :
    (notifyObservers fuel p s).get p = some o ∧
    (∀ q, q ≠ p → (notifyObservers fuel p s).get q = s.get q) ∧
    (notifyObservers fuel p s).log = s.log ∧
    (notifyObservers fuel p s).nextId = s.nextId ∧
    (notifyObservers fuel p s).spawnCount = s.spawnCount := by
  cases fuel with
  | zero => exact ⟨h, fun q _ => rfl, rfl, rfl, rfl⟩
  | succ k =>
    have hstep : notifyObservers (k+1) p s = s.set p o := by
      have hcomp : notifyObservers (k+1) p s =
          clearPhase p (operationPhase k p (handlerPhase k p s)) := rfl
      rw [hcomp, handlerPhase_empty k p s o h hh,
        operationPhase_empty k p s o h ho, clearPhase_empty p s o h hh ho]
    rw [hstep]
    exact ⟨Sys.get_set_self s p o, fun q hq => Sys.get_set_ne s p q o hq, rfl, rfl, rfl⟩

/-! ### Settle-once behaviour of the public `Resolve`/`Reject` -/

theorem Resolve_not_pending (fuel : Nat) (p : Nat) (v : Value) (s : Sys) (o : PromObj)
    (h : s.get p = some o) (hs : ¬ o.state = .pending) :
    Resolve fuel p v s = (s, some .resolveNotPending) := by
  simp [Resolve, h, hs]

theorem Reject_not_pending (fuel : Nat) (p : Nat) (e : Option GoErr) (s : Sys) (o : PromObj)
    (h : s.get p = some o) (hs : ¬ o.state = .pending) :
    Reject fuel p e s = (s, some .rejectNotPending) := by
  simp [Reject, h, hs]

/-- Resolving a pending promise with no continuations: it becomes fulfilled
with the given value, the call returns nil, and nothing else changes. -/
theorem Resolve_pending_empty (fuel : Nat) (p : Nat) (v : Value) (s : Sys) (o : PromObj)
    (h : s.get p = some o) (hs : o.state = .pending)
    (hh : o.handlers = []) (ho : o.operations = []) :
    (Resolve (fuel+1) p v s).2 = none ∧
    (Resolve (fuel+1) p v s).1.get p = some { o with state := .fulfilled, value := v } ∧
    (∀ q, q ≠ p → (Resolve (fuel+1) p v s).1.get q = s.get q) ∧
    (Resolve (fuel+1) p v s).1.log = s.log ∧
    (Resolve (fuel+1) p v s).1.nextId = s.nextId ∧
    (Resolve (fuel+1) p v s).1.spawnCount = s.spawnCount := by
  have hstep : Resolve (fuel+1) p v s =
      (notifyObservers fuel p (s.set p { o with state := .fulfilled, value := v }), none) := by
    simp [Resolve, exec, notifyObservers, h, hs]
  have hset := Sys.get_set_self s p { o with state := .fulfilled, value := v }
  have hn := notify_empty fuel p (s.set p { o with state := .fulfilled, value := v })
    { o with state := .fulfilled, value := v } hset hh ho
  rw [hstep]
  refine ⟨rfl, hn.1, fun q hq => ?_, ?_, ?_, ?_⟩
  · rw [hn.2.1 q hq, Sys.get_set_ne s p q _ hq]
  · rw [hn.2.2.1, Sys.log_set]
  · rw [hn.2.2.2.1, Sys.nextId_set]
  · rw [hn.2.2.2.2, Sys.spawnCount_set]

/-- Rejecting a pending promise with no continuations. -/
theorem Reject_pending_empty (fuel : Nat) (p : Nat) (e : Option GoErr) (s : Sys) (o : PromObj)
    (h : s.get p = some o) (hs : o.state = .pending)
    (hh : o.handlers = []) (ho : o.operations = []) :
    (Reject (fuel+1) p e s).2 = none ∧
    (Reject (fuel+1) p e s).1.get p = some { o with state := .rejected, err := e } ∧
    (∀ q, q ≠ p → (Reject (fuel+1) p e s).1.get q = s.get q) ∧
    (Reject (fuel+1) p e s).1.log = s.log ∧
    (Reject (fuel+1) p e s).1.nextId = s.nextId ∧
    (Reject (fuel+1) p e s).1.spawnCount = s.spawnCount := by
  have hstep : Reject (fuel+1) p e s =
      (notifyObservers fuel p (s.set p { o with state := .rejected, err := e }), none) := by
    simp [Reject, exec, notifyObservers, h, hs]
  have hset := Sys.get_set_self s p { o with state := .rejected, err := e }
  have hn := notify_empty fuel p (s.set p { o with state := .rejected, err := e })
    { o with state := .rejected, err := e } hset hh ho
  rw [hstep]
  refine ⟨rfl, hn.1, fun q hq => ?_, ?_, ?_, ?_⟩
  · rw [hn.2.1 q hq, Sys.get_set_ne s p q _ hq]
  · rw [hn.2.2.1, Sys.log_set]
  · rw [hn.2.2.2.1, Sys.nextId_set]
  · rw [hn.2.2.2.2, Sys.spawnCount_set]

/-! ### Step lemmas for symbolic execution by rewriting -/

theorem sget_set (s : Sys) (p q : Nat) (o : PromObj) :
    (s.set p o).get q = if q = p then some o else s.get q := rfl

theorem sget_alloc (s : Sys) (o : PromObj) (q : Nat) :
    ((s.alloc o).1).get q = if q = s.nextId then some o else s.get q := rfl

theorem sget_push (s : Sys) (e : Event) (q : Nat) : (s.push e).get q = s.get q := rfl
theorem snextId_alloc (s : Sys) (o : PromObj) : (s.alloc o).1.nextId = s.nextId + 1 := rfl
theorem salloc_snd (s : Sys) (o : PromObj) : (s.alloc o).2 = s.nextId := rfl
theorem slog_alloc (s : Sys) (o : PromObj) : (s.alloc o).1.log = s.log := rfl
theorem sspawn_alloc (s : Sys) (o : PromObj) : (s.alloc o).1.spawnCount = s.spawnCount := rfl
theorem sget_empty (q : Nat) : Sys.empty.get q = none := rfl
theorem snextId_empty : Sys.empty.nextId = 0 := rfl
theorem slog_empty : Sys.empty.log = [] := rfl
theorem sspawn_empty : Sys.empty.spawnCount = 0 := rfl
theorem snextId_set (s : Sys) (p : Nat) (o : PromObj) : (s.set p o).nextId = s.nextId := rfl
theorem snextId_push (s : Sys) (e : Event) : (s.push e).nextId = s.nextId := rfl
theorem sspawn_set2 (s : Sys) (p : Nat) (o : PromObj) : (s.set p o).spawnCount = s.spawnCount := rfl
theorem sspawn_push2 (s : Sys) (e : Event) : (s.push e).spawnCount = s.spawnCount := rfl
theorem slog_set2 (s : Sys) (p : Nat) (o : PromObj) : (s.set p o).log = s.log := rfl
theorem slog_push2 (s : Sys) (e : Event) : (s.push e).log = s.log ++ [e] := rfl

theorem appendOp_known (s : Sys) (p : Nat) (op : Operation) (o : PromObj)
    (h : s.get p = some o) :
    s.appendOp p op = s.set p { o with operations := o.operations ++ [op] } := by
  rw [Sys.appendOp, Sys.modify_eq_set s p _ o h]

theorem appendHandler_known (s : Sys) (p : Nat) (hd : Handler) (o : PromObj)
    (h : s.get p = some o) :
    s.appendHandler p hd = s.set p { o with handlers := o.handlers ++ [hd] } := by
  rw [Sys.appendHandler, Sys.modify_eq_set s p _ o h]

theorem setPending_known (s : Sys) (p : Nat) (o : PromObj) (h : s.get p = some o) :
    s.setPendingState p = s.set p { o with state := .pending } := by
  rw [Sys.setPendingState, Sys.modify_eq_set s p _ o h]

theorem clearPhase_known (s : Sys) (p : Nat) (o : PromObj) (h : s.get p = some o) :
    clearPhase p s = s.set p { o with handlers := [], operations := [] } := by
  rw [clearPhase, Sys.modify_eq_set s p _ o h]

theorem exec_resolveA_step (fuel : Nat) (p : Nat) (v : Value) (s : Sys) (o : PromObj)
    (h : s.get p = some o) (hs : o.state = .pending) :
    exec (fuel+1) (.resolveA p v) s =
      exec fuel (.notifyA p) (s.set p { o with state := .fulfilled, value := v }) := by
  simp [exec, h, hs]

theorem exec_resolveA_stuck (fuel : Nat) (p : Nat) (v : Value) (s : Sys) (o : PromObj)
    (h : s.get p = some o) (hs : ¬ o.state = .pending) :
    exec (fuel+1) (.resolveA p v) s = s := by
  simp [exec, h, hs]

theorem exec_rejectA_step (fuel : Nat) (p : Nat) (e : Option GoErr) (s : Sys) (o : PromObj)
    (h : s.get p = some o) (hs : o.state = .pending) :
    exec (fuel+1) (.rejectA p e) s =
      exec fuel (.notifyA p) (s.set p { o with state := .rejected, err := e }) := by
  simp [exec, h, hs]

theorem exec_notifyA_step (fuel : Nat) (p : Nat) (s : Sys) :
    exec (fuel+1) (.notifyA p) s =
      clearPhase p (exec fuel (.operationPhaseA p) (exec fuel (.handlerPhaseA p) s)) := rfl

theorem exec_handlerPhaseA_known (fuel : Nat) (p : Nat) (s : Sys) (o : PromObj)
    (h : s.get p = some o) :
    exec (fuel+1) (.handlerPhaseA p) s = exec fuel (.handlersA p o.handlers) s := by
  simp [exec, h]

theorem exec_operationPhaseA_known (fuel : Nat) (p : Nat) (s : Sys) (o : PromObj)
    (h : s.get p = some o) :
    exec (fuel+1) (.operationPhaseA p) s = exec fuel (.operationsA o.operations) s := by
  simp [exec, h]

theorem exec_handlersA_cons (fuel : Nat) (p : Nat) (h : Handler) (hs : List Handler) (s : Sys) :
    exec (fuel+1) (.handlersA p (h :: hs)) s =
      exec fuel (.handlersA p hs) (exec fuel (.handlerA p h) s) := rfl

theorem exec_operationsA_cons (fuel : Nat) (op : Operation) (ops : List Operation) (s : Sys) :
    exec (fuel+1) (.operationsA (op :: ops)) s =
      exec fuel (.operationsA ops) (exec fuel (.operationA op) s) := rfl

theorem exec_handlerA_user_notRejected (fuel : Nat) (p : Nat) (tag : Nat)
    (g : Value → Value × Option GoErr) (d : Nat) (s : Sys) (o : PromObj)
    (h : s.get p = some o) (hs : ¬ o.state = .rejected) :
    exec (fuel+1) (.handlerA p (.onFulfill (.user tag g) d)) s =
      (s.push (.fulfillCalled tag o.value)).appendOp p
        (resultOp d (g o.value).1 (g o.value).2) := by
  simp [exec, h, hs]

theorem exec_handlerA_fulfill_rejected (fuel : Nat) (p : Nat) (f : FulfillFn) (d : Nat)
    (s : Sys) (o : PromObj) (h : s.get p = some o) (hs : o.state = .rejected) :
    exec (fuel+1) (.handlerA p (.onFulfill f d)) s =
      s.appendOp p (.rejectWithErrOf d p) := by
  simp [exec, h, hs]

theorem exec_handlerA_resolveInto_notRejected (fuel : Nat) (p : Nat) (t : Nat) (d : Nat)
    (s : Sys) (o : PromObj) (h : s.get p = some o) (hs : ¬ o.state = .rejected) :
    exec (fuel+1) (.handlerA p (.onFulfill (.resolveInto t) d)) s =
      (exec fuel (.resolveA t o.value) s).appendOp p (resultOp d o.value none) := by
  simp [exec, h, hs]

theorem exec_handlerA_reject_fulfilled (fuel : Nat) (p : Nat) (r : RejectFn) (d : Nat)
    (s : Sys) (o : PromObj) (h : s.get p = some o) (hs : o.state = .fulfilled) :
    exec (fuel+1) (.handlerA p (.onReject r d)) s =
      s.appendOp p (.resolveWithValueOf d p) := by
  simp [exec, h, hs]

theorem exec_handlerA_rejectUser_notFulfilled (fuel : Nat) (p : Nat) (tag : Nat) (d : Nat)
    (s : Sys) (o : PromObj) (h : s.get p = some o) (hs : ¬ o.state = .fulfilled) :
    exec (fuel+1) (.handlerA p (.onReject (.user tag) d)) s =
      (s.push (.rejectCalled tag o.err)).appendOp p (.resolveWith d .null) := by
  simp [exec, h, hs]

theorem exec_handlerA_rejectInto_notFulfilled (fuel : Nat) (p : Nat) (t : Nat) (d : Nat)
    (s : Sys) (o : PromObj) (h : s.get p = some o) (hs : ¬ o.state = .fulfilled) :
    exec (fuel+1) (.handlerA p (.onReject (.rejectInto t) d)) s =
      (exec fuel (.rejectA t o.err) s).appendOp p (.resolveWith d .null) := by
  simp [exec, h, hs]

theorem exec_handlerA_finally (fuel : Nat) (p : Nat) (tag : Nat) (d : Nat)
    (s : Sys) (o : PromObj) (h : s.get p = some o) :
    exec (fuel+1) (.handlerA p (.onFinally tag d)) s =
      (s.push (.finallyCalled tag)).appendOp p (.finallySettle d p) := by
  simp [exec, h]

theorem exec_opA_resolveWith (fuel : Nat) (d : Nat) (v : Value) (s : Sys) :
    exec (fuel+1) (.operationA (.resolveWith d v)) s =
      exec fuel (.resolveA d v) (s.setPendingState d) := rfl

theorem exec_opA_rejectWith (fuel : Nat) (d : Nat) (e : Option GoErr) (s : Sys) :
    exec (fuel+1) (.operationA (.rejectWith d e)) s =
      exec fuel (.rejectA d e) (s.setPendingState d) := rfl

theorem exec_opA_rejectWithErrOf (fuel : Nat) (d src : Nat) (s : Sys) (o : PromObj)
    (h : (s.setPendingState d).get src = some o) :
    exec (fuel+1) (.operationA (.rejectWithErrOf d src)) s =
      exec fuel (.rejectA d o.err) (s.setPendingState d) := by
  simp [exec, h]

theorem exec_opA_resolveWithValueOf (fuel : Nat) (d src : Nat) (s : Sys) (o : PromObj)
    (h : (s.setPendingState d).get src = some o) :
    exec (fuel+1) (.operationA (.resolveWithValueOf d src)) s =
      exec fuel (.resolveA d o.value) (s.setPendingState d) := by
  simp [exec, h]

theorem exec_opA_finallySettle_fulfilled (fuel : Nat) (d src : Nat) (s : Sys) (o : PromObj)
    (h : (s.setPendingState d).get src = some o) (hs : o.state = .fulfilled) :
    exec (fuel+1) (.operationA (.finallySettle d src)) s =
      exec fuel (.resolveA d o.value) (s.setPendingState d) := by
  simp [exec, h, hs]

theorem exec_opA_finallySettle_notFulfilled (fuel : Nat) (d src : Nat) (s : Sys) (o : PromObj)
    (h : (s.setPendingState d).get src = some o) (hs : ¬ o.state = .fulfilled) :
    exec (fuel+1) (.operationA (.finallySettle d src)) s =
      exec fuel (.rejectA d o.err) (s.setPendingState d) := by
  simp [exec, h, hs]

theorem exec_opA_adopt (fuel : Nat) (d inner : Nat) (s : Sys) :
    exec (fuel+1) (.operationA (.adopt d inner)) s =
      exec fuel (.registerA inner none (some (.rejectInto d)) none)
        (exec fuel (.registerA inner (some (.resolveInto d)) none none)
          (s.setPendingState d)) := rfl

theorem exec_registerA_notify (fuel : Nat) (p : Nat) (fh : Option FulfillFn)
    (rh : Option RejectFn) (finh : Option Nat) (s : Sys) (o : PromObj)
    (h : (registerAppendPhase p fh rh finh s).1.get p = some o)
    (hs : o.state ≠ .pending ∧ o.state ≠ .settling) :
    exec (fuel+1) (.registerA p fh rh finh) s =
      exec fuel (.notifyA p) (registerAppendPhase p fh rh finh s).1 := by
  simp only [exec, h]
  rw [if_pos hs]

theorem exec_registerA_queue (fuel : Nat) (p : Nat) (fh : Option FulfillFn)
    (rh : Option RejectFn) (finh : Option Nat) (s : Sys) (o : PromObj)
    (h : (registerAppendPhase p fh rh finh s).1.get p = some o)
    (hs : ¬ (o.state ≠ .pending ∧ o.state ≠ .settling)) :
    exec (fuel+1) (.registerA p fh rh finh) s =
      (registerAppendPhase p fh rh finh s).1 := by
  simp only [exec, h]
  rw [if_neg hs]

/-! ### Claim C1: settle-once for manually settled pending promises -/

/-- A public settlement call made by external code. -/
inductive SettleCall
  | res (v : Value)
  | rej (e : Option GoErr)

/-- The error such a call returns when the promise is no longer pending. -/
def SettleCall.errResult : SettleCall → Option GoErr
  | .res _ => some .resolveNotPending
  | .rej _ => some .rejectNotPending

/-- The object a freshly pending promise holds after this call succeeds. -/
def SettleCall.settledObj : SettleCall → PromObj
  | .res v => { state := .fulfilled, handlers := [], operations := [], value := v, err := none }
  | .rej e => { state := .rejected, handlers := [], operations := [], value := .null, err := e }

/-- Run a sequence of public `Resolve`/`Reject` calls, collecting the errors
each returns. -/
def runSettleCalls (fuel : Nat) (p : Nat) : List SettleCall → Sys → Sys × List (Option GoErr)
  | [], s => (s, [])
  | c :: cs, s =>
    let t := match c with
      | .res v => Resolve fuel p v s
      | .rej e => Reject fuel p e s
    let r := runSettleCalls fuel p cs t.1
    (r.1, t.2 :: r.2)

/-- Once a promise is no longer pending, every further public settlement call
returns the corresponding not-pending error and changes nothing. -/
theorem later_calls_noop (fuel : Nat) (p : Nat) (cs : List SettleCall) (s : Sys) (o : PromObj)
    (h : s.get p = some o) (hs : ¬ o.state = .pending) :
    runSettleCalls fuel p cs s = (s, cs.map SettleCall.errResult) := by
  induction cs with
  | nil => rfl
  | cons c cs ih =>
    cases c with
    | res v =>
      simp [runSettleCalls, Resolve_not_pending fuel p v s o h hs, ih, SettleCall.errResult]
    | rej e =>
      simp [runSettleCalls, Reject_not_pending fuel p e s o h hs, ih, SettleCall.errResult]

/-- Claim C1: for a `Pending()` promise, among any sequence of public
`Resolve`/`Reject` calls exactly the first succeeds (returning nil) and every
later call returns the corresponding not-pending error
(`ErrResolveNotPendingPromise` for `Resolve`, `ErrRejectNotPendingPromise`
for `Reject`) without changing the stored state, value or reason; the stored
value/reason is the first call's argument. -/
theorem C1_settle_once (fuel : Nat) (c : SettleCall) (cs : List SettleCall) :
    (runSettleCalls (fuel+1) 0 (c :: cs) (Pending Sys.empty).1).2 =
      none :: cs.map SettleCall.errResult ∧
    (runSettleCalls (fuel+1) 0 (c :: cs) (Pending Sys.empty).1).1.get 0 =
      some c.settledObj := by
  cases c with
  | res v =>
    have h0 : (Pending Sys.empty).1.get 0 = some (PromObj.mk0 .pending) := rfl
    obtain ⟨hr2, hrget, -, -, -, -⟩ :=
      Resolve_pending_empty fuel 0 v (Pending Sys.empty).1 (PromObj.mk0 .pending) h0 rfl rfl rfl
    have hnoop := later_calls_noop (fuel+1) 0 cs (Resolve (fuel+1) 0 v (Pending Sys.empty).1).1
      _ hrget (by simp [PromObj.mk0])
    refine ⟨?_, ?_⟩ <;>
      simp [runSettleCalls, hnoop, hr2, hrget, SettleCall.settledObj, PromObj.mk0]
  | rej e =>
    have h0 : (Pending Sys.empty).1.get 0 = some (PromObj.mk0 .pending) := rfl
    obtain ⟨hr2, hrget, -, -, -, -⟩ :=
      Reject_pending_empty fuel 0 e (Pending Sys.empty).1 (PromObj.mk0 .pending) h0 rfl rfl rfl
    have hnoop := later_calls_noop (fuel+1) 0 cs (Reject (fuel+1) 0 e (Pending Sys.empty).1).1
      _ hrget (by simp [PromObj.mk0])
    refine ⟨?_, ?_⟩ <;>
      simp [runSettleCalls, hnoop, hr2, hrget, SettleCall.settledObj, PromObj.mk0]

/-! ### Claim C4: registration on an already-terminal promise -/

/-- Claim C4, counterexample.  The claim says a handler registered on an
already-fulfilled promise is dispatched "immediately on a new concurrent unit
of work — not synchronously in the caller's control flow — without appending
it to the continuation list".  In the code, `registerHandlers` first appends
the closure to `p.handlers` (shown here: after the append phase the
continuation list has length 1) and then calls `notifyObservers` directly in
the caller's goroutine: `Then` is definitionally the append phase followed by
an inline `notifyObservers`, the handler's invocation is already in the log
when `Then` returns, and no new goroutine was spawned (`spawnCount` is still
0; the only `go` statement in the package is in `NewPromise`). -/
theorem C4_counterexample :
    (((registerAppendPhase 0 (some (.user 7 (fun _ => (.null, none)))) none none
        (ResolveCtor (.int 42) Sys.empty).1).1.get 0).map (fun o => o.handlers.length)
      = some 1) ∧
    (Then 5 0 (.user 7 (fun _ => (.null, none))) (ResolveCtor (.int 42) Sys.empty).1).1 =
      notifyObservers 4 0
        (registerAppendPhase 0 (some (.user 7 (fun _ => (.null, none)))) none none
          (ResolveCtor (.int 42) Sys.empty).1).1 ∧
    (Then 5 0 (.user 7 (fun _ => (.null, none))) (ResolveCtor (.int 42) Sys.empty).1).1.log =
      [.fulfillCalled 7 (.int 42)] ∧
    (Then 5 0 (.user 7 (fun _ => (.null, none))) (ResolveCtor (.int 42) Sys.empty).1).1.spawnCount
      = 0 :=
  ⟨rfl, rfl, rfl, rfl⟩

/-- Claim C4, amended: registering a `Then`/`Catch`/`Finally` handler on an
already-terminal promise first appends it to the continuation list and then
dispatches it immediately and synchronously, inside the registration call
itself (no new concurrent unit of work is spawned), draining and clearing the
list; the handler still fires exactly once, and the derived promise is
settled accordingly before the registration call returns. -/
theorem C4_amended (v r0 : Value) (e : GoErr) (tagT tagC tagF : Nat)
    (hr : r0.isProm = false) :
    -- Then on an already-fulfilled promise:
    ((((registerAppendPhase 0 (some (.user tagT (fun _ => (r0, none)))) none none
        (ResolveCtor v Sys.empty).1).1.get 0).map (fun o => o.handlers.length) = some 1) ∧
     ((Then 10 0 (.user tagT (fun _ => (r0, none))) (ResolveCtor v Sys.empty).1).1.log =
        [.fulfillCalled tagT v]) ∧
     ((Then 10 0 (.user tagT (fun _ => (r0, none))) (ResolveCtor v Sys.empty).1).1.spawnCount
        = 0) ∧
     (((Then 10 0 (.user tagT (fun _ => (r0, none))) (ResolveCtor v Sys.empty).1).1.get 0).map
        (fun o => (o.state, o.handlers.length, o.operations.length)) =
        some (.fulfilled, 0, 0)) ∧
     (((Then 10 0 (.user tagT (fun _ => (r0, none))) (ResolveCtor v Sys.empty).1).1.get 1).map
        (fun o => (o.state, o.value)) = some (.fulfilled, r0))) ∧
    -- Catch on an already-rejected promise:
    (((Catch 10 0 (.user tagC) (RejectCtor (some e) Sys.empty).1).1.log =
        [.rejectCalled tagC (some e)]) ∧
     ((Catch 10 0 (.user tagC) (RejectCtor (some e) Sys.empty).1).1.spawnCount = 0) ∧
     (((Catch 10 0 (.user tagC) (RejectCtor (some e) Sys.empty).1).1.get 0).map
        (fun o => o.handlers.length) = some 0)) ∧
    -- Finally on an already-fulfilled promise:
    (((Finally 10 0 tagF (ResolveCtor v Sys.empty).1).1.log = [.finallyCalled tagF]) ∧
     ((Finally 10 0 tagF (ResolveCtor v Sys.empty).1).1.spawnCount = 0) ∧
     (((Finally 10 0 tagF (ResolveCtor v Sys.empty).1).1.get 1).map
        (fun o => (o.state, o.value)) = some (.fulfilled, v))) := by
  cases r0 <;>
    first
      | exact ⟨⟨rfl, rfl, rfl, rfl, rfl⟩, ⟨rfl, rfl, rfl⟩, ⟨rfl, rfl, rfl⟩⟩
      | simp [Value.isProm] at hr

/-- Witness for `C4_amended` at concrete inputs. -/
theorem C4_amended_witness :
    (Value.int 3).isProm = false ∧
    ((Then 10 0 (.user 1 (fun _ => (.int 3, none))) (ResolveCtor (.int 9) Sys.empty).1).1.log =
      [.fulfillCalled 1 (.int 9)]) :=
  ⟨rfl, (C4_amended (.int 9) (.int 3) (.user 0) 1 2 3 rfl).1.2.1⟩

/-! ### Claim C5: catch consumes rejections and passes fulfillment through -/

/-- Claim C5: if the source becomes rejected with reason `r`, `Catch`'s
handler runs with `r` and the derived promise then fulfills with a nil value;
if the source becomes fulfilled with `v`, the handler is skipped (no
invocation is logged) and the derived promise fulfills with the same `v`. -/
theorem C5_catch (e : GoErr) (v : Value) (tag : Nat) :
    -- source rejected: handler runs, rejection is absorbed:
    ((Reject 10 0 (some e) (Catch 10 0 (.user tag) (Pending Sys.empty).1).1).1.log =
      [.rejectCalled tag (some e)]) ∧
    (((Reject 10 0 (some e) (Catch 10 0 (.user tag) (Pending Sys.empty).1).1).1.get 1).map
      (fun o => (o.state, o.value, o.err)) = some (.fulfilled, .null, none)) ∧
    -- source fulfilled: handler skipped, value passes through unchanged:
    ((Resolve 10 0 v (Catch 10 0 (.user tag) (Pending Sys.empty).1).1).1.log = []) ∧
    (((Resolve 10 0 v (Catch 10 0 (.user tag) (Pending Sys.empty).1).1).1.get 1).map
      (fun o => (o.state, o.value, o.err)) = some (.fulfilled, v, none)) :=
  ⟨rfl, rfl, rfl, rfl⟩

/-! ### Claim C6: finally runs either way and passes the outcome through -/

/-- Claim C6: `Finally`'s handler runs (with no arguments) whether the source
fulfills or rejects, and the derived promise then settles with exactly the
same state, value and reason as the source. -/
theorem C6_finally (v : Value) (e : Option GoErr) (tag : Nat) :
    -- source fulfilled with v: handler ran, derived fulfilled with v:
    ((Resolve 10 0 v (Finally 10 0 tag (Pending Sys.empty).1).1).1.log =
      [.finallyCalled tag]) ∧
    (((Resolve 10 0 v (Finally 10 0 tag (Pending Sys.empty).1).1).1.get 0).map
      (fun o => (o.state, o.value, o.err)) = some (.fulfilled, v, none)) ∧
    (((Resolve 10 0 v (Finally 10 0 tag (Pending Sys.empty).1).1).1.get 1).map
      (fun o => (o.state, o.value, o.err)) = some (.fulfilled, v, none)) ∧
    -- source rejected with e: handler ran, derived rejected with e:
    ((Reject 10 0 e (Finally 10 0 tag (Pending Sys.empty).1).1).1.log =
      [.finallyCalled tag]) ∧
    (((Reject 10 0 e (Finally 10 0 tag (Pending Sys.empty).1).1).1.get 0).map
      (fun o => (o.state, o.value, o.err)) = some (.rejected, .null, e)) ∧
    (((Reject 10 0 e (Finally 10 0 tag (Pending Sys.empty).1).1).1.get 1).map
      (fun o => (o.state, o.value, o.err)) = some (.rejected, .null, e)) :=
  ⟨rfl, rfl, rfl, rfl, rfl, rfl⟩

/-! ### Claim C7: when the derived promise of Then rejects -/

/-- Claim C7, counterexample.  The claim states an "if and only if": the
derived promise of `Then(onFulfilled)` rejects only when the source rejects
or when `onFulfilled` returns a non-nil error.  Here the source (promise 0)
is fulfilled and the handler returns `(Reject(user 5) promise, nil error)`,
yet the derived promise (promise 2) rejects — with the inner promise's
reason — because flattening adopts the inner promise's outcome.  So the
"only if" direction of the claim is false on the code. -/
theorem C7_counterexample :
    (((RejectCtor (some (.user 5)) (ResolveCtor .null Sys.empty).1).1.get 0).map
      (fun o => o.state) = some .fulfilled) ∧
    (((Then 30 0 (.user 6 (fun _ => (.prom 1, none)))
        (RejectCtor (some (.user 5)) (ResolveCtor .null Sys.empty).1).1).1.get 2).map
      (fun o => (o.state, o.err)) = some (.rejected, some (.user 5))) := by
  refine ⟨rfl, ?_⟩
  simp [Then, registerHandlers, registerAppendPhase, ResolveCtor, RejectCtor,
    Sys.appendHandler, Sys.appendOp, Sys.setPendingState, Sys.modify, clearPhase,
    sget_set, sget_alloc, sget_push, snextId_alloc, salloc_snd, slog_alloc, sspawn_alloc,
    sget_empty, snextId_empty, slog_empty, sspawn_empty, snextId_set, snextId_push,
    sspawn_set2, sspawn_push2, slog_set2, slog_push2, resultOp, PromObj.mk0,
    exec_resolveA_step, exec_resolveA_stuck, exec_rejectA_step, exec_notifyA_step,
    exec_handlerPhaseA_known, exec_operationPhaseA_known, exec_handlers_nil,
    exec_operations_nil, exec_handlersA_cons, exec_operationsA_cons,
    exec_handlerA_user_notRejected, exec_handlerA_fulfill_rejected,
    exec_handlerA_resolveInto_notRejected, exec_handlerA_reject_fulfilled,
    exec_handlerA_rejectUser_notFulfilled, exec_handlerA_rejectInto_notFulfilled,
    exec_handlerA_finally, exec_opA_resolveWith, exec_opA_rejectWith,
    exec_opA_rejectWithErrOf, exec_opA_resolveWithValueOf,
    exec_opA_finallySettle_fulfilled, exec_opA_finallySettle_notFulfilled,
    exec_opA_adopt, exec_registerA_notify, exec_registerA_queue]

/-- Claim C7, amended: the derived promise of `Then(onFulfilled)` rejects
exactly in these cases — the source rejects with `r` (the handler is never
invoked and the derived promise rejects with the same `r`); the source
fulfills and the handler returns a non-nil error `e` (the derived promise
rejects with `e`); or the source fulfills and the handler returns, with a
nil error, an inner promise that is or becomes rejected with `r` (the
derived promise rejects with `r`).  When the source fulfills and the handler
returns a plain value with a nil error, the derived promise fulfills. -/
theorem C7_amended (v r0 w : Value) (e er : GoErr) (g : Value → Value × Option GoErr)
    (tag : Nat) (hw : w.isProm = false) :
    -- source rejected: handler skipped, reason passes through unchanged:
    ((Reject 10 0 (some er) (Then 10 0 (.user tag g) (Pending Sys.empty).1).1).1.log = []) ∧
    (((Reject 10 0 (some er) (Then 10 0 (.user tag g) (Pending Sys.empty).1).1).1.get 1).map
      (fun o => (o.state, o.err)) = some (.rejected, some er)) ∧
    -- handler returns a non-nil error: derived rejects with it, invocation logged once:
    ((Resolve 10 0 v (Then 10 0 (.user tag (fun _ => (r0, some e)))
        (Pending Sys.empty).1).1).1.log = [.fulfillCalled tag v]) ∧
    (((Resolve 10 0 v (Then 10 0 (.user tag (fun _ => (r0, some e)))
        (Pending Sys.empty).1).1).1.get 1).map
      (fun o => (o.state, o.err)) = some (.rejected, some e)) ∧
    -- handler returns with nil error an inner promise that rejects: derived rejects:
    (((Then 30 0 (.user tag (fun _ => (.prom 1, none)))
        (RejectCtor (some er) (ResolveCtor v Sys.empty).1).1).1.get 2).map
      (fun o => (o.state, o.err)) = some (.rejected, some er)) ∧
    -- handler returns a plain value with nil error: derived fulfills, no rejection:
    (((Resolve 10 0 v (Then 10 0 (.user tag (fun _ => (w, none)))
        (Pending Sys.empty).1).1).1.get 1).map
      (fun o => (o.state, o.err)) = some (.fulfilled, none)) := by
  refine ⟨rfl, rfl, rfl, rfl, ?_, ?_⟩
  · simp [Then, registerHandlers, registerAppendPhase, ResolveCtor, RejectCtor,
      Sys.appendHandler, Sys.appendOp, Sys.setPendingState, Sys.modify, clearPhase,
      sget_set, sget_alloc, sget_push, snextId_alloc, salloc_snd, slog_alloc, sspawn_alloc,
      sget_empty, snextId_empty, slog_empty, sspawn_empty, snextId_set, snextId_push,
      sspawn_set2, sspawn_push2, slog_set2, slog_push2, resultOp, PromObj.mk0,
      exec_resolveA_step, exec_resolveA_stuck, exec_rejectA_step, exec_notifyA_step,
      exec_handlerPhaseA_known, exec_operationPhaseA_known, exec_handlers_nil,
      exec_operations_nil, exec_handlersA_cons, exec_operationsA_cons,
      exec_handlerA_user_notRejected, exec_handlerA_fulfill_rejected,
      exec_handlerA_resolveInto_notRejected, exec_handlerA_reject_fulfilled,
      exec_handlerA_rejectUser_notFulfilled, exec_handlerA_rejectInto_notFulfilled,
      exec_handlerA_finally, exec_opA_resolveWith, exec_opA_rejectWith,
      exec_opA_rejectWithErrOf, exec_opA_resolveWithValueOf,
      exec_opA_finallySettle_fulfilled, exec_opA_finallySettle_notFulfilled,
      exec_opA_adopt, exec_registerA_notify, exec_registerA_queue]
  · cases w <;> first | rfl | simp [Value.isProm] at hw

/-- Witness for `C7_amended` at concrete inputs. -/
theorem C7_amended_witness :
    (Value.int 0).isProm = false ∧
    ((Reject 10 0 (some (.user 1)) (Then 10 0 (.user 0 (fun x => (x, none)))
        (Pending Sys.empty).1).1).1.log = []) :=
  ⟨rfl, (C7_amended .null .null (.int 0) (.user 2) (.user 1)
    (fun x => (x, none)) 0 rfl).1⟩

/-! ### Claim C2: flattening of a promise returned by a Then handler -/

/-- Claim C2: when a `Then` handler returns a `*Promise` with a nil error,
the derived promise does not fulfill with that promise object as its value;
it adopts the inner promise's outcome.  If the inner promise is already
fulfilled with a (plain) value `w`, the derived promise fulfills with `w`
(and its value is not a promise object); if the inner promise is already
rejected with `r`, the derived promise rejects with `r`; if the inner
promise is still pending, the derived promise stays unsettled, and when the
inner promise is later resolved (rejected) by an external caller the derived
promise fulfills (rejects) identically. -/
theorem C2_flattening (v0 w : Value) (r : GoErr) (tag : Nat) (hw : w.isProm = false) :
    -- (a) inner already fulfilled with w (source 0, inner 1, derived 2):
    (((Then 30 0 (.user tag (fun _ => (.prom 1, none)))
        (ResolveCtor w (ResolveCtor v0 Sys.empty).1).1).1.get 2).map
      (fun o => (o.state, o.value)) = some (.fulfilled, w)) ∧
    (((Then 30 0 (.user tag (fun _ => (.prom 1, none)))
        (ResolveCtor w (ResolveCtor v0 Sys.empty).1).1).1.get 2).map
      (fun o => o.value.isProm) = some false) ∧
    -- (b) inner already rejected with r:
    (((Then 30 0 (.user tag (fun _ => (.prom 1, none)))
        (RejectCtor (some r) (ResolveCtor v0 Sys.empty).1).1).1.get 2).map
      (fun o => (o.state, o.err)) = some (.rejected, some r)) ∧
    -- (c) inner still pending: derived stays unsettled...
    (((Then 30 0 (.user tag (fun _ => (.prom 1, none)))
        (Pending (ResolveCtor v0 Sys.empty).1).1).1.get 2).map
      (fun o => o.state) = some .pending) ∧
    -- ...and settles identically once the inner promise is settled externally:
    (((Resolve 30 1 w (Then 30 0 (.user tag (fun _ => (.prom 1, none)))
        (Pending (ResolveCtor v0 Sys.empty).1).1).1).1.get 2).map
      (fun o => (o.state, o.value)) = some (.fulfilled, w)) ∧
    (((Reject 30 1 (some r) (Then 30 0 (.user tag (fun _ => (.prom 1, none)))
        (Pending (ResolveCtor v0 Sys.empty).1).1).1).1.get 2).map
      (fun o => (o.state, o.err)) = some (.rejected, some r)) := by
  refine ⟨?_, ?_, ?_, ?_, ?_, ?_⟩ <;>
    cases w <;>
      first
        | (simp [Then, registerHandlers, registerAppendPhase, ResolveCtor, RejectCtor,
            Pending, Resolve, Reject,
            Sys.appendHandler, Sys.appendOp, Sys.setPendingState, Sys.modify, clearPhase,
            sget_set, sget_alloc, sget_push, snextId_alloc, salloc_snd, slog_alloc,
            sspawn_alloc, sget_empty, snextId_empty, slog_empty, sspawn_empty, snextId_set,
            snextId_push, sspawn_set2, sspawn_push2, slog_set2, slog_push2, resultOp,
            PromObj.mk0, Value.isProm,
            exec_resolveA_step, exec_resolveA_stuck, exec_rejectA_step, exec_notifyA_step,
            exec_handlerPhaseA_known, exec_operationPhaseA_known, exec_handlers_nil,
            exec_operations_nil, exec_handlersA_cons, exec_operationsA_cons,
            exec_handlerA_user_notRejected, exec_handlerA_fulfill_rejected,
            exec_handlerA_resolveInto_notRejected, exec_handlerA_reject_fulfilled,
            exec_handlerA_rejectUser_notFulfilled, exec_handlerA_rejectInto_notFulfilled,
            exec_handlerA_finally, exec_opA_resolveWith, exec_opA_rejectWith,
            exec_opA_rejectWithErrOf, exec_opA_resolveWithValueOf,
            exec_opA_finallySettle_fulfilled, exec_opA_finallySettle_notFulfilled,
            exec_opA_adopt, exec_registerA_notify, exec_registerA_queue]
           done)
        | simp [Value.isProm] at hw

/-- Witness for `C2_flattening` at concrete inputs. -/
theorem C2_flattening_witness :
    (Value.str "inner").isProm = false ∧
    (((Then 30 0 (.user 0 (fun _ => (.prom 1, none)))
        (ResolveCtor (.str "inner") (ResolveCtor (.int 1) Sys.empty).1).1).1.get 2).map
      (fun o => (o.state, o.value)) = some (.fulfilled, .str "inner")) :=
  ⟨rfl, (C2_flattening (.int 1) (.str "inner") (.user 3) 0 rfl).1⟩

/-! ### Claim C8: task-backed promises -/

/-- The object the promise holds after an effective internal capability call. -/
def CbCall.settledObj : CbCall → PromObj
  | .res v => { state := .fulfilled, handlers := [], operations := [], value := v, err := none }
  | .rej e => { state := .rejected, handlers := [], operations := [], value := .null, err := e }

/-- Once a task-backed promise has left the settling state, further internal
capability calls are silently ignored: they change nothing observable. -/
theorem internal_calls_noop (p : Nat) (cs : List CbCall) (s : Sys) (o : PromObj)
    (h : s.get p = some o) (hs : ¬ o.state = .settling) :
    (runCallbackCalls p cs s).get p = some o ∧
    (∀ q, q ≠ p → (runCallbackCalls p cs s).get q = s.get q) ∧
    (runCallbackCalls p cs s).log = s.log := by
  induction cs generalizing s o with
  | nil => exact ⟨h, fun q _ => rfl, rfl⟩
  | cons c cs ih =>
    have hstep : ∀ s', s' = resolveInternal p (match c with | .res v => v | .rej _ => .null) s ∨
        True := fun _ => Or.inr trivial
    cases c with
    | res v =>
      have h1 : resolveInternal p v s = s.set p o := by
        rw [resolveInternal, Sys.modify_eq_set s p _ o h, if_neg hs]
      rw [runCallbackCalls, h1]
      obtain ⟨a, b, cgl⟩ := ih (s.set p o) o (Sys.get_set_self s p o) hs
      exact ⟨a, fun q hq => by rw [b q hq, Sys.get_set_ne s p q o hq], by rw [cgl, Sys.log_set]⟩
    | rej e =>
      have h1 : rejectInternal p e s = s.set p o := by
        rw [rejectInternal, Sys.modify_eq_set s p _ o h, if_neg hs]
      rw [runCallbackCalls, h1]
      obtain ⟨a, b, cgl⟩ := ih (s.set p o) o (Sys.get_set_self s p o) hs
      exact ⟨a, fun q hq => by rw [b q hq, Sys.get_set_ne s p q o hq], by rw [cgl, Sys.log_set]⟩

/-- Claim C8: a task-backed promise starts in the settling state (on a newly
spawned goroutine); among all the callback's capability calls only the first
(resolve or reject alike) takes effect and every later one is silently
ignored; and if the callback makes no capability call at all, the promise
degrades from settling to pending when the task finishes, after which the
public `Resolve` can complete it. -/
theorem C8_task_backed (fuel : Nat) (v : Value) (c : CbCall) (cs : List CbCall) :
    -- starts settling, one goroutine spawned:
    ((NewPromiseAlloc Sys.empty).1.get 0 = some (PromObj.mk0 .settling)) ∧
    ((NewPromiseAlloc Sys.empty).1.spawnCount = 1) ∧
    -- first capability call wins, later ones are ignored:
    ((runNewPromiseTask fuel 0 (c :: cs) (NewPromiseAlloc Sys.empty).1).get 0 =
      some c.settledObj) ∧
    -- no capability call: the task degrades the promise to pending...
    ((runNewPromiseTask fuel 0 [] (NewPromiseAlloc Sys.empty).1).get 0 =
      some (PromObj.mk0 .pending)) ∧
    -- ...and the public Resolve then completes it:
    ((Resolve (fuel+1) 0 v (runNewPromiseTask fuel 0 [] (NewPromiseAlloc Sys.empty).1)).2 =
      none) ∧
    (((Resolve (fuel+1) 0 v
        (runNewPromiseTask fuel 0 [] (NewPromiseAlloc Sys.empty).1)).1.get 0).map
      (fun o => (o.state, o.value)) = some (.fulfilled, v)) := by
  refine ⟨rfl, rfl, ?_, rfl, ?_, ?_⟩
  · -- first call wins
    have hfirst : (runCallbackCalls 0 [c] (NewPromiseAlloc Sys.empty).1).get 0 =
        some c.settledObj := by
      cases c <;> rfl
    have hsplit : runCallbackCalls 0 (c :: cs) (NewPromiseAlloc Sys.empty).1 =
        runCallbackCalls 0 cs (runCallbackCalls 0 [c] (NewPromiseAlloc Sys.empty).1) := by
      cases c <;> rfl
    have hterm : ¬ (CbCall.settledObj c).state = .settling := by
      cases c <;> simp [CbCall.settledObj]
    obtain ⟨ha, -, -⟩ := internal_calls_noop 0 cs
      (runCallbackCalls 0 [c] (NewPromiseAlloc Sys.empty).1) c.settledObj hfirst hterm
    have hcalls : (runCallbackCalls 0 (c :: cs) (NewPromiseAlloc Sys.empty).1).get 0 =
        some c.settledObj := by rw [hsplit]; exact ha
    rw [runNewPromiseTask]
    rw [hcalls]
    have hns : ((c.settledObj).state = PState.settling) = False := by
      simp [hterm]
    simp only [hns, if_false]
    obtain ⟨hn1, -, -, -, -⟩ := notify_empty fuel 0
      (runCallbackCalls 0 (c :: cs) (NewPromiseAlloc Sys.empty).1) c.settledObj hcalls
      (by cases c <;> rfl) (by cases c <;> rfl)
    simpa [hterm] using hn1
  · -- empty callback: Resolve returns nil
    have hp : (runNewPromiseTask fuel 0 [] (NewPromiseAlloc Sys.empty).1).get 0 =
        some (PromObj.mk0 .pending) := rfl
    exact (Resolve_pending_empty fuel 0 v _ (PromObj.mk0 .pending) hp rfl rfl rfl).1
  · have hp : (runNewPromiseTask fuel 0 [] (NewPromiseAlloc Sys.empty).1).get 0 =
        some (PromObj.mk0 .pending) := rfl
    have h2 := (Resolve_pending_empty fuel 0 v _ (PromObj.mk0 .pending) hp rfl rfl rfl).2.1
    rw [h2]
    rfl

/-! ### Claims C3 and C10: registration-order dispatch and two-phase dispatch -/

/-- A registered `Then` continuation: user handler tag, handler function, and
the derived promise it produced. -/
abbrev ThenReg := Nat × (Value → Value × Option GoErr) × Nat

/-- The closure `registerHandlers` stores for such a registration. -/
def thenHandler (x : ThenReg) : Handler := .onFulfill (.user x.1 x.2.1) x.2.2

/-- The log event its invocation produces when the source fulfills with `v`. -/
def thenEvent (v : Value) (x : ThenReg) : Event := .fulfillCalled x.1 v

/-- The operation its invocation enqueues when the source fulfills with `v`. -/
def thenOp (v : Value) (x : ThenReg) : Operation :=
  resultOp x.2.2 (x.2.1 v).1 (x.2.1 v).2

/-- Running the handler loop over `Then` closures on a fulfilled source logs
exactly one invocation per closure, in list order, and enqueues one operation
per closure on the source, touching nothing else. -/
theorem handlers_fold (p : Nat) (v : Value) :
    ∀ (xs : List ThenReg) (fuel : Nat) (s : Sys) (o : PromObj),
      xs.length < fuel → s.get p = some o → o.state = .fulfilled → o.value = v →
      (exec fuel (.handlersA p (xs.map thenHandler)) s).log = s.log ++ xs.map (thenEvent v) ∧
      (exec fuel (.handlersA p (xs.map thenHandler)) s).get p =
        some { o with operations := o.operations ++ xs.map (thenOp v) } ∧
      (∀ q, q ≠ p → (exec fuel (.handlersA p (xs.map thenHandler)) s).get q = s.get q) ∧
      (exec fuel (.handlersA p (xs.map thenHandler)) s).nextId = s.nextId ∧
      (exec fuel (.handlersA p (xs.map thenHandler)) s).spawnCount = s.spawnCount := by
  intro xs
  induction xs with
  | nil =>
    intro fuel s o _ h _ _
    rw [List.map_nil, exec_handlers_nil]
    exact ⟨by simp, by simp [h], fun q _ => rfl, rfl, rfl⟩
  | cons x xs ih =>
    intro fuel s o hf h hst hv
    cases fuel with
    | zero => omega
    | succ k =>
      cases k with
      | zero => simp at hf
      | succ m =>
        rw [List.map_cons, exec_handlersA_cons]
        have hnr : ¬ o.state = .rejected := by rw [hst]; simp
        have hstep := exec_handlerA_user_notRejected m p x.1 x.2.1 x.2.2 s o h hnr
        have happ := appendOp_known (s.push (.fulfillCalled x.1 o.value)) p
          (resultOp x.2.2 (x.2.1 o.value).1 (x.2.1 o.value).2) o (by rw [sget_push]; exact h)
        rw [show (Act.handlerA p (thenHandler x)) =
              (Act.handlerA p (.onFulfill (.user x.1 x.2.1) x.2.2)) from rfl,
          hstep, happ]
        have hget2 : ((s.push (.fulfillCalled x.1 o.value)).set p
            { o with operations := o.operations ++
                [resultOp x.2.2 (x.2.1 o.value).1 (x.2.1 o.value).2] }).get p =
            some { o with operations := o.operations ++
                [resultOp x.2.2 (x.2.1 o.value).1 (x.2.1 o.value).2] } := by
          rw [sget_set]; simp
        obtain ⟨il, ig, iq, ii, isp⟩ := ih (m+1)
          ((s.push (.fulfillCalled x.1 o.value)).set p
            { o with operations := o.operations ++
                [resultOp x.2.2 (x.2.1 o.value).1 (x.2.1 o.value).2] })
          { o with operations := o.operations ++
              [resultOp x.2.2 (x.2.1 o.value).1 (x.2.1 o.value).2] }
          (by simpa using hf) hget2 hst hv
        refine ⟨?_, ?_, ?_, ?_, ?_⟩
        · rw [il, slog_set2, slog_push2, hv]
          simp [thenEvent]
        · rw [ig, hv]
          simp [thenOp]
        · intro q hq
          rw [iq q hq, sget_set, if_neg hq, sget_push]
        · rw [ii, snextId_set, snextId_push]
        · rw [isp, sspawn_set2, sspawn_push2]

/-- The derived promise an operation settles. -/
def Operation.target : Operation → Nat
  | .rejectWithErrOf d _ => d
  | .adopt d _ => d
  | .resolveWith d _ => d
  | .rejectWith d _ => d
  | .resolveWithValueOf d _ => d
  | .finallySettle d _ => d

/-- Operations that settle their target with a captured payload (the two
shapes produced by a `Then` handler returning a plain value). -/
def Operation.isSimple : Operation → Bool
  | .resolveWith _ _ => true
  | .rejectWith _ _ => true
  | _ => false

/-- The object a freshly created (settling, empty) target holds after a
simple operation runs. -/
def Operation.settledObj : Operation → PromObj
  | .resolveWith _ w =>
    { state := .fulfilled, handlers := [], operations := [], value := w, err := none }
  | .rejectWith _ e =>
    { state := .rejected, handlers := [], operations := [], value := .null, err := e }
  | _ => PromObj.mk0 .pending

/-- One simple operation on a fresh settling target: the target is settled
with the captured payload and nothing else changes. -/
theorem operation_simple_step (m : Nat) (op : Operation) (s : Sys)
    (hsimple : op.isSimple = true)
    (hobj : s.get op.target = some (PromObj.mk0 .settling)) :
    (exec (m+2) (.operationA op) s).get op.target = some op.settledObj ∧
    (∀ q, q ≠ op.target → (exec (m+2) (.operationA op) s).get q = s.get q) ∧
    (exec (m+2) (.operationA op) s).log = s.log ∧
    (exec (m+2) (.operationA op) s).nextId = s.nextId ∧
    (exec (m+2) (.operationA op) s).spawnCount = s.spawnCount := by
  cases op with
  | resolveWith d w =>
    simp only [Operation.target, Operation.settledObj] at hobj ⊢
    have h1 : s.setPendingState d = s.set d (PromObj.mk0 .pending) := by
      rw [setPending_known s d (PromObj.mk0 .settling) hobj]; rfl
    have h2 : (s.set d (PromObj.mk0 .pending)).get d = some (PromObj.mk0 .pending) := by
      rw [sget_set]; simp
    have h3 := exec_resolveA_step m d w (s.set d (PromObj.mk0 .pending))
      (PromObj.mk0 .pending) h2 rfl
    have hfin : ((s.set d (PromObj.mk0 .pending)).set d
        { PromObj.mk0 .pending with state := .fulfilled, value := w }).get d =
        some { PromObj.mk0 .pending with state := .fulfilled, value := w } := by
      rw [sget_set]; simp
    obtain ⟨n1, n2, n3, n4, n5⟩ := notify_empty m d
      ((s.set d (PromObj.mk0 .pending)).set d
        { PromObj.mk0 .pending with state := .fulfilled, value := w })
      { PromObj.mk0 .pending with state := .fulfilled, value := w } hfin rfl rfl
    simp only [notifyObservers] at n1 n2 n3 n4 n5
    rw [exec_opA_resolveWith, h1, h3]
    refine ⟨n1, ?_, ?_, ?_, ?_⟩
    · intro q hq
      rw [n2 q hq, sget_set, if_neg hq, sget_set, if_neg hq]
    · rw [n3, slog_set2, slog_set2]
    · rw [n4, snextId_set, snextId_set]
    · rw [n5, sspawn_set2, sspawn_set2]
  | rejectWith d e =>
    simp only [Operation.target, Operation.settledObj] at hobj ⊢
    have h1 : s.setPendingState d = s.set d (PromObj.mk0 .pending) := by
      rw [setPending_known s d (PromObj.mk0 .settling) hobj]; rfl
    have h2 : (s.set d (PromObj.mk0 .pending)).get d = some (PromObj.mk0 .pending) := by
      rw [sget_set]; simp
    have h3 := exec_rejectA_step m d e (s.set d (PromObj.mk0 .pending))
      (PromObj.mk0 .pending) h2 rfl
    have hfin : ((s.set d (PromObj.mk0 .pending)).set d
        { PromObj.mk0 .pending with state := .rejected, err := e }).get d =
        some { PromObj.mk0 .pending with state := .rejected, err := e } := by
      rw [sget_set]; simp
    obtain ⟨n1, n2, n3, n4, n5⟩ := notify_empty m d
      ((s.set d (PromObj.mk0 .pending)).set d
        { PromObj.mk0 .pending with state := .rejected, err := e })
      { PromObj.mk0 .pending with state := .rejected, err := e } hfin rfl rfl
    simp only [notifyObservers] at n1 n2 n3 n4 n5
    rw [exec_opA_rejectWith, h1, h3]
    refine ⟨n1, ?_, ?_, ?_, ?_⟩
    · intro q hq
      rw [n2 q hq, sget_set, if_neg hq, sget_set, if_neg hq]
    · rw [n3, slog_set2, slog_set2]
    · rw [n4, snextId_set, snextId_set]
    · rw [n5, sspawn_set2, sspawn_set2]
  | rejectWithErrOf d src => simp [Operation.isSimple] at hsimple
  | adopt d i => simp [Operation.isSimple] at hsimple
  | resolveWithValueOf d src => simp [Operation.isSimple] at hsimple
  | finallySettle d src => simp [Operation.isSimple] at hsimple

/-- Running the operation loop over simple operations with pairwise-distinct
fresh targets settles each target with its captured payload, adds nothing to
the log, and leaves every other promise (in particular the source) alone. -/
theorem operations_fold (p : Nat) :
    ∀ (ops : List Operation) (fuel : Nat) (s : Sys),
      2 * ops.length < fuel →
      (∀ op ∈ ops, op.isSimple = true ∧ op.target ≠ p ∧
        s.get op.target = some (PromObj.mk0 .settling)) →
      ((ops.map Operation.target).Nodup) →
      (exec fuel (.operationsA ops) s).log = s.log ∧
      (exec fuel (.operationsA ops) s).get p = s.get p ∧
      (∀ q, (∀ op ∈ ops, op.target ≠ q) →
        (exec fuel (.operationsA ops) s).get q = s.get q) ∧
      (∀ op ∈ ops, (exec fuel (.operationsA ops) s).get op.target = some op.settledObj) ∧
      (exec fuel (.operationsA ops) s).nextId = s.nextId ∧
      (exec fuel (.operationsA ops) s).spawnCount = s.spawnCount := by
  intro ops
  induction ops with
  | nil =>
    intro fuel s _ _ _
    rw [exec_operations_nil]
    exact ⟨rfl, rfl, fun q _ => rfl, by simp, rfl, rfl⟩
  | cons op ops ih =>
    intro fuel s hf hops hnd
    cases fuel with
    | zero => omega
    | succ k =>
      have hlen : (op :: ops).length = ops.length + 1 := rfl
      have hk : 2 * ops.length < k := by rw [hlen] at hf; omega
      obtain ⟨m, rfl⟩ : ∃ m, k = m + 2 := ⟨k - 2, by rw [hlen] at hf; omega⟩
      have hops1 := hops op (List.mem_cons_self op ops)
      have hopsRest := fun o ho => hops o (List.mem_cons_of_mem op ho)
      obtain ⟨s1, s2, s3, s4, s5⟩ := operation_simple_step m op s hops1.1 hops1.2.2
      have hndTail : (ops.map Operation.target).Nodup := (List.nodup_cons.mp hnd).2
      have hheadNotin : op.target ∉ ops.map Operation.target := (List.nodup_cons.mp hnd).1
      rw [exec_operationsA_cons]
      obtain ⟨il, ig, iq, it, ii, isp⟩ := ih (m+2) (exec (m+2) (.operationA op) s) hk
        (fun o ho => ⟨(hopsRest o ho).1, (hopsRest o ho).2.1, by
          rw [s2 o.target (by
            intro hEq
            exact hheadNotin (hEq ▸ List.mem_map_of_mem Operation.target ho))]
          exact (hopsRest o ho).2.2⟩)
        hndTail
      refine ⟨?_, ?_, ?_, ?_, ?_, ?_⟩
      · rw [il, s3]
      · rw [ig, s2 p (fun hEq => hops1.2.1 hEq.symm)]
      · intro q hq
        rw [iq q (fun o ho => hq o (List.mem_cons_of_mem op ho)),
          s2 q (fun hEq => hq op (List.mem_cons_self op ops) hEq.symm)]
      · intro o ho
        rcases List.mem_cons.mp ho with hEq | hmem
        · subst hEq
          rw [iq o.target (fun o2 ho2 hEq2 => hheadNotin
            (hEq2 ▸ List.mem_map_of_mem Operation.target ho2))]
          exact s1
        · exact it o hmem
      · rw [ii, s4]
      · rw [isp, s5]

/-- The registrations produced by registering a list of user handlers one
after another: handler `i` gets derived promise `base + i`. -/
def mkRegs (base : Nat) : List (Nat × (Value → Value × Option GoErr)) → List ThenReg
  | [] => []
  | tf :: tfs => (tf.1, tf.2, base) :: mkRegs (base+1) tfs

/-- Register `Then` handlers one after another on promise `p`. -/
def registerAll (fuel : Nat) (p : Nat) :
    List (Nat × (Value → Value × Option GoErr)) → Sys → Sys
  | [], s => s
  | tf :: tfs, s => registerAll fuel p tfs (Then fuel p (.user tf.1 tf.2) s).1

theorem mkRegs_events (v : Value) :
    ∀ (tfs : List (Nat × (Value → Value × Option GoErr))) (base : Nat),
      (mkRegs base tfs).map (thenEvent v) = tfs.map (fun tf => Event.fulfillCalled tf.1 v) := by
  intro tfs
  induction tfs with
  | nil => intro base; rfl
  | cons tf tfs ih => intro base; simp [mkRegs, thenEvent, ih (base+1)]

theorem mkRegs_target_bound :
    ∀ (tfs : List (Nat × (Value → Value × Option GoErr))) (base : Nat) (x : ThenReg),
      x ∈ mkRegs base tfs → base ≤ x.2.2 ∧ x.2.2 < base + tfs.length := by
  intro tfs
  induction tfs with
  | nil => intro base x hx; simp [mkRegs] at hx
  | cons tf tfs ih =>
    intro base x hx
    rcases List.mem_cons.mp hx with hEq | hmem
    · subst hEq; simp
    · obtain ⟨h1, h2⟩ := ih (base+1) x hmem
      simp only [List.length_cons]
      omega

theorem mkRegs_targets_nodup :
    ∀ (tfs : List (Nat × (Value → Value × Option GoErr))) (base : Nat),
      ((mkRegs base tfs).map (fun x : ThenReg => x.2.2)).Nodup := by
  intro tfs
  induction tfs with
  | nil => intro base; simp [mkRegs]
  | cons tf tfs ih =>
    intro base
    rw [mkRegs, List.map_cons, List.nodup_cons]
    refine ⟨?_, ih (base+1)⟩
    intro hmem
    obtain ⟨x, hx, hEq⟩ := List.mem_map.mp hmem
    have hEq2 : x.2.2 = base := hEq
    have hb := mkRegs_target_bound tfs (base+1) x hx
    omega

theorem resultOp_target (d : Nat) (r : Value) (e : Option GoErr) :
    (resultOp d r e).target = d := by
  cases e <;> cases r <;> rfl

theorem resultOp_simple (d : Nat) (r : Value) (e : Option GoErr) (hr : r.isProm = false) :
    (resultOp d r e).isSimple = true := by
  cases e with
  | some e => rfl
  | none => cases r <;> first | rfl | simp [Value.isProm] at hr

/-- Registering a list of `Then` handlers on a pending promise appends the
corresponding closures in order, allocates one fresh settling derived promise
per handler, dispatches nothing, and leaves every older promise alone. -/
theorem register_fold (p : Nat) :
    ∀ (tfs : List (Nat × (Value → Value × Option GoErr))) (k : Nat) (s : Sys) (o : PromObj),
      s.get p = some o → o.state = .pending → p < s.nextId →
      (registerAll (k+1) p tfs s).get p =
        some { o with handlers := o.handlers ++ (mkRegs s.nextId tfs).map thenHandler } ∧
      (∀ x ∈ mkRegs s.nextId tfs, (registerAll (k+1) p tfs s).get x.2.2 =
        some (PromObj.mk0 .settling)) ∧
      (∀ q, q ≠ p → q < s.nextId → (registerAll (k+1) p tfs s).get q = s.get q) ∧
      (registerAll (k+1) p tfs s).log = s.log ∧
      (registerAll (k+1) p tfs s).nextId = s.nextId + tfs.length ∧
      (registerAll (k+1) p tfs s).spawnCount = s.spawnCount := by
  intro tfs
  induction tfs with
  | nil =>
    intro k s o h _ _
    refine ⟨?_, ?_, fun q _ _ => rfl, rfl, rfl, rfl⟩
    · simp [registerAll, mkRegs, h]
    · intro x hx; simp [mkRegs] at hx
  | cons tf tfs ih =>
    intro k s o h hst hnext
    have hne : p ≠ s.nextId := Nat.ne_of_lt hnext
    have hAlloc : ((s.alloc (PromObj.mk0 .settling)).1).get p = some o := by
      rw [sget_alloc, if_neg hne]; exact h
    have hPhase : (registerAppendPhase p (some (.user tf.1 tf.2)) none none s).1 =
        ((s.alloc (PromObj.mk0 .settling)).1).set p
          { o with handlers := o.handlers ++ [.onFulfill (.user tf.1 tf.2) s.nextId] } := by
      simp only [registerAppendPhase, salloc_snd]
      rw [appendHandler_known _ _ _ o hAlloc]
    have hGetP : (registerAppendPhase p (some (.user tf.1 tf.2)) none none s).1.get p =
        some { o with handlers := o.handlers ++ [.onFulfill (.user tf.1 tf.2) s.nextId] } := by
      rw [hPhase, sget_set]; simp
    have hNQ : ¬ (({ o with handlers := o.handlers ++
        [Handler.onFulfill (.user tf.1 tf.2) s.nextId] } : PromObj).state ≠ .pending ∧
        ({ o with handlers := o.handlers ++
        [Handler.onFulfill (.user tf.1 tf.2) s.nextId] } : PromObj).state ≠ .settling) := by
      simp [hst]
    have hThen : (Then (k+1) p (.user tf.1 tf.2) s).1 =
        ((s.alloc (PromObj.mk0 .settling)).1).set p
          { o with handlers := o.handlers ++ [.onFulfill (.user tf.1 tf.2) s.nextId] } := by
      show (exec (k+1) (.registerA p (some (.user tf.1 tf.2)) none none) s) = _
      rw [exec_registerA_queue k p _ _ _ s _ hGetP hNQ, hPhase]
    have hs' : ((s.alloc (PromObj.mk0 .settling)).1.set p
        { o with handlers := o.handlers ++ [.onFulfill (.user tf.1 tf.2) s.nextId] }).get p =
        some { o with handlers := o.handlers ++ [.onFulfill (.user tf.1 tf.2) s.nextId] } := by
      rw [sget_set]; simp
    have hnext' : p < ((s.alloc (PromObj.mk0 .settling)).1.set p
        { o with handlers := o.handlers ++
          [.onFulfill (.user tf.1 tf.2) s.nextId] }).nextId := by
      simp only [snextId_set, snextId_alloc]
      omega
    obtain ⟨ip, ix, iq, il, ii, isp⟩ := ih k
      ((s.alloc (PromObj.mk0 .settling)).1.set p
        { o with handlers := o.handlers ++ [.onFulfill (.user tf.1 tf.2) s.nextId] })
      { o with handlers := o.handlers ++ [.onFulfill (.user tf.1 tf.2) s.nextId] }
      hs' hst hnext'
    simp only [snextId_set, snextId_alloc] at ip ix iq ii
    have hstep : registerAll (k+1) p (tf :: tfs) s =
        registerAll (k+1) p tfs
          ((s.alloc (PromObj.mk0 .settling)).1.set p
            { o with handlers := o.handlers ++ [.onFulfill (.user tf.1 tf.2) s.nextId] }) := by
      rw [registerAll, hThen]
    refine ⟨?_, ?_, ?_, ?_, ?_, ?_⟩
    · rw [hstep, ip]
      simp [mkRegs, thenHandler]
    · intro x hx
      rw [mkRegs] at hx
      rcases List.mem_cons.mp hx with hEq | hmem
    -- head: the derived promise allocated by this registration
      · subst hEq
        rw [hstep, iq s.nextId (Ne.symm hne) (by omega), sget_set, if_neg (Ne.symm hne),
          sget_alloc, if_pos rfl]
      · rw [hstep]
        exact ix x hmem
    · intro q hq hql
      rw [hstep, iq q hq (by omega), sget_set, if_neg hq, sget_alloc,
        if_neg (by omega)]
    · rw [hstep, il, slog_set2, slog_alloc]
    · rw [hstep, ii]
      simp only [List.length_cons]
      omega
    · rw [hstep, isp, sspawn_set2, sspawn_alloc]

theorem mkRegs_length :
    ∀ (tfs : List (Nat × (Value → Value × Option GoErr))) (base : Nat),
      (mkRegs base tfs).length = tfs.length := by
  intro tfs
  induction tfs with
  | nil => intro base; rfl
  | cons tf tfs ih => intro base; simp [mkRegs, ih (base+1)]

theorem mkRegs_fns :
    ∀ (tfs : List (Nat × (Value → Value × Option GoErr))) (base : Nat) (x : ThenReg),
      x ∈ mkRegs base tfs → ∃ tf ∈ tfs, x.2.1 = tf.2 := by
  intro tfs
  induction tfs with
  | nil => intro base x hx; simp [mkRegs] at hx
  | cons tf tfs ih =>
    intro base x hx
    rcases List.mem_cons.mp hx with hEq | hmem
    · exact ⟨tf, List.mem_cons_self tf tfs, by rw [hEq]⟩
    · obtain ⟨tf2, h1, h2⟩ := ih (base+1) x hmem
      exact ⟨tf2, List.mem_cons_of_mem tf h1, h2⟩

/-- The two dispatch phases of a `Resolve` on a pending promise carrying `N`
registered `Then` handlers: after the handler phase every handler has run
(in registration order, logging one invocation each) and has enqueued one
settlement operation, while every derived promise is still unsettled; the
operation phase then settles each derived promise and logs nothing. -/
theorem resolve_phases (k fuel : Nat) (v : Value)
    (tfs : List (Nat × (Value → Value × Option GoErr)))
    (hres : ∀ tf ∈ tfs, ((tf.2 v).1).isProm = false)
    (hfuel : 2 * tfs.length + 1 < fuel) :
    (registerAll (k+1) 0 tfs (Pending Sys.empty).1).get 0 =
      some { PromObj.mk0 .pending with handlers := (mkRegs 1 tfs).map thenHandler } ∧
    (handlerPhase fuel 0 ((registerAll (k+1) 0 tfs (Pending Sys.empty).1).set 0
        ⟨.fulfilled, (mkRegs 1 tfs).map thenHandler, [], v, none⟩)).log =
      tfs.map (fun tf => Event.fulfillCalled tf.1 v) ∧
    (handlerPhase fuel 0 ((registerAll (k+1) 0 tfs (Pending Sys.empty).1).set 0
        ⟨.fulfilled, (mkRegs 1 tfs).map thenHandler, [], v, none⟩)).get 0 =
      some ⟨.fulfilled, (mkRegs 1 tfs).map thenHandler, (mkRegs 1 tfs).map (thenOp v),
        v, none⟩ ∧
    (∀ x ∈ mkRegs 1 tfs,
      (handlerPhase fuel 0 ((registerAll (k+1) 0 tfs (Pending Sys.empty).1).set 0
        ⟨.fulfilled, (mkRegs 1 tfs).map thenHandler, [], v, none⟩)).get x.2.2 =
      some (PromObj.mk0 .settling)) ∧
    (∀ x ∈ mkRegs 1 tfs,
      (operationPhase fuel 0 (handlerPhase fuel 0
        ((registerAll (k+1) 0 tfs (Pending Sys.empty).1).set 0
          ⟨.fulfilled, (mkRegs 1 tfs).map thenHandler, [], v, none⟩))).get x.2.2 =
      some (thenOp v x).settledObj) ∧
    (operationPhase fuel 0 (handlerPhase fuel 0
        ((registerAll (k+1) 0 tfs (Pending Sys.empty).1).set 0
          ⟨.fulfilled, (mkRegs 1 tfs).map thenHandler, [], v, none⟩))).log =
      tfs.map (fun tf => Event.fulfillCalled tf.1 v) ∧
    (operationPhase fuel 0 (handlerPhase fuel 0
        ((registerAll (k+1) 0 tfs (Pending Sys.empty).1).set 0
          ⟨.fulfilled, (mkRegs 1 tfs).map thenHandler, [], v, none⟩))).get 0 =
      some ⟨.fulfilled, (mkRegs 1 tfs).map thenHandler, (mkRegs 1 tfs).map (thenOp v),
        v, none⟩ := by
  obtain ⟨rp, rx, rq, rl, ri, rsp⟩ := register_fold 0 tfs k (Pending Sys.empty).1
    (PromObj.mk0 .pending) rfl rfl Nat.one_pos
  have hnx : (Pending Sys.empty).1.nextId = 1 := rfl
  rw [hnx] at rp rx ri
  have hrp : (registerAll (k+1) 0 tfs (Pending Sys.empty).1).get 0 =
      some { PromObj.mk0 .pending with handlers := (mkRegs 1 tfs).map thenHandler } := by
    rw [rp]; simp [PromObj.mk0]
  -- the state right after the check-and-set of Resolve
  have hs3 : ((registerAll (k+1) 0 tfs (Pending Sys.empty).1).set 0
      ⟨.fulfilled, (mkRegs 1 tfs).map thenHandler, [], v, none⟩).get 0 =
      some ⟨.fulfilled, (mkRegs 1 tfs).map thenHandler, [], v, none⟩ := by
    rw [sget_set]; simp
  obtain ⟨f3, rfl⟩ : ∃ f3, fuel = f3 + 1 := ⟨fuel - 1, by omega⟩
  have hHP : handlerPhase (f3+1) 0 ((registerAll (k+1) 0 tfs (Pending Sys.empty).1).set 0
      ⟨.fulfilled, (mkRegs 1 tfs).map thenHandler, [], v, none⟩) =
      exec f3 (.handlersA 0 ((mkRegs 1 tfs).map thenHandler))
        ((registerAll (k+1) 0 tfs (Pending Sys.empty).1).set 0
          ⟨.fulfilled, (mkRegs 1 tfs).map thenHandler, [], v, none⟩) := by
    show exec (f3+1) (.handlerPhaseA 0) _ = _
    rw [exec_handlerPhaseA_known f3 0 _ _ hs3]
  obtain ⟨hAl, hAg, hAq, hAi, hAsp⟩ := handlers_fold 0 v (mkRegs 1 tfs) f3
    ((registerAll (k+1) 0 tfs (Pending Sys.empty).1).set 0
      ⟨.fulfilled, (mkRegs 1 tfs).map thenHandler, [], v, none⟩)
    ⟨.fulfilled, (mkRegs 1 tfs).map thenHandler, [], v, none⟩
    (by rw [mkRegs_length]; omega) hs3 rfl rfl
  have hlog3 : ((registerAll (k+1) 0 tfs (Pending Sys.empty).1).set 0
      ⟨.fulfilled, (mkRegs 1 tfs).map thenHandler, [], v, none⟩).log = [] := by
    rw [slog_set2, rl]; rfl
  have hshlog : (handlerPhase (f3+1) 0 ((registerAll (k+1) 0 tfs (Pending Sys.empty).1).set 0
      ⟨.fulfilled, (mkRegs 1 tfs).map thenHandler, [], v, none⟩)).log =
      tfs.map (fun tf => Event.fulfillCalled tf.1 v) := by
    rw [hHP, hAl, hlog3, List.nil_append, mkRegs_events]
  have hshget : (handlerPhase (f3+1) 0 ((registerAll (k+1) 0 tfs (Pending Sys.empty).1).set 0
      ⟨.fulfilled, (mkRegs 1 tfs).map thenHandler, [], v, none⟩)).get 0 =
      some ⟨.fulfilled, (mkRegs 1 tfs).map thenHandler, (mkRegs 1 tfs).map (thenOp v),
        v, none⟩ := by
    rw [hHP, hAg]; simp
  have hshx : ∀ x ∈ mkRegs 1 tfs,
      (handlerPhase (f3+1) 0 ((registerAll (k+1) 0 tfs (Pending Sys.empty).1).set 0
        ⟨.fulfilled, (mkRegs 1 tfs).map thenHandler, [], v, none⟩)).get x.2.2 =
      some (PromObj.mk0 .settling) := by
    intro x hx
    have hxb := mkRegs_target_bound tfs 1 x hx
    have hxne : x.2.2 ≠ 0 := by omega
    rw [hHP, hAq x.2.2 hxne, sget_set, if_neg hxne]
    exact rx x hx
  -- operation phase
  have hOP : operationPhase (f3+1) 0 (handlerPhase (f3+1) 0
      ((registerAll (k+1) 0 tfs (Pending Sys.empty).1).set 0
        ⟨.fulfilled, (mkRegs 1 tfs).map thenHandler, [], v, none⟩)) =
      exec f3 (.operationsA ((mkRegs 1 tfs).map (thenOp v)))
        (handlerPhase (f3+1) 0 ((registerAll (k+1) 0 tfs (Pending Sys.empty).1).set 0
          ⟨.fulfilled, (mkRegs 1 tfs).map thenHandler, [], v, none⟩)) := by
    show exec (f3+1) (.operationPhaseA 0) _ = _
    rw [exec_operationPhaseA_known f3 0 _ _ hshget]
  have hopsGood : ∀ op ∈ (mkRegs 1 tfs).map (thenOp v), op.isSimple = true ∧
      op.target ≠ 0 ∧
      (handlerPhase (f3+1) 0 ((registerAll (k+1) 0 tfs (Pending Sys.empty).1).set 0
        ⟨.fulfilled, (mkRegs 1 tfs).map thenHandler, [], v, none⟩)).get op.target =
        some (PromObj.mk0 .settling) := by
    intro op hop
    obtain ⟨x, hx, rfl⟩ := List.mem_map.mp hop
    obtain ⟨tf, htf, hfn⟩ := mkRegs_fns tfs 1 x hx
    have hxb := mkRegs_target_bound tfs 1 x hx
    have hsimple : (thenOp v x).isSimple = true := by
      apply resultOp_simple
      rw [hfn]
      exact hres tf htf
    have htarget : (thenOp v x).target = x.2.2 := resultOp_target _ _ _
    refine ⟨hsimple, ?_, ?_⟩
    · rw [htarget]; omega
    · rw [htarget]
      exact hshx x hx
  have hndTargets : (((mkRegs 1 tfs).map (thenOp v)).map Operation.target).Nodup := by
    rw [List.map_map]
    have : (Operation.target ∘ thenOp v) = fun x : ThenReg => x.2.2 := by
      funext x
      exact resultOp_target _ _ _
    rw [this]
    exact mkRegs_targets_nodup tfs 1
  obtain ⟨bl, bg, bq, bt, bi, bsp⟩ := operations_fold 0 ((mkRegs 1 tfs).map (thenOp v)) f3
    (handlerPhase (f3+1) 0 ((registerAll (k+1) 0 tfs (Pending Sys.empty).1).set 0
      ⟨.fulfilled, (mkRegs 1 tfs).map thenHandler, [], v, none⟩))
    (by rw [List.length_map, mkRegs_length]; omega) hopsGood hndTargets
  refine ⟨hrp, hshlog, hshget, hshx, ?_, ?_, ?_⟩
  · intro x hx
    have htarget : (thenOp v x).target = x.2.2 := resultOp_target _ _ _
    have := bt (thenOp v x) (List.mem_map_of_mem (thenOp v) hx)
    rw [htarget] at this
    rw [hOP]
    exact this
  · rw [hOP, bl, hshlog]
  · rw [hOP, bg, hshget]

/-- `Resolve` on a pending promise is exactly: check-and-set under the lock,
then the handler loop, then the operation loop, then clearing both lists. -/
theorem Resolve_decompose (fuel : Nat) (p : Nat) (v : Value) (s2 : Sys) (o2 : PromObj)
    (h : s2.get p = some o2) (hst : o2.state = .pending) :
    Resolve (fuel+2) p v s2 =
      (clearPhase p (operationPhase fuel p (handlerPhase fuel p
        (s2.set p { o2 with state := .fulfilled, value := v }))), none) := by
  have h1 : Resolve (fuel+2) p v s2 = (exec (fuel+2) (.resolveA p v) s2, none) := by
    simp only [Resolve, h]
    rw [if_pos hst]
  have h2 := exec_resolveA_step (fuel+1) p v s2 o2 h hst
  rw [h1, h2, exec_notifyA_step]
  rfl

/-- Claim C3: `N` `Then` handlers registered (in order) on a pending promise
before it fulfills are each invoked exactly once after fulfillment, in
registration order: the log of handler invocations produced by `Resolve` is
exactly one `fulfillCalled` event per registered handler, in list order. -/
theorem C3_registration_order (k fuel : Nat) (v : Value)
    (tfs : List (Nat × (Value → Value × Option GoErr)))
    (hres : ∀ tf ∈ tfs, ((tf.2 v).1).isProm = false)
    (hfuel : 2 * tfs.length + 3 < fuel) :
    (Resolve fuel 0 v (registerAll (k+1) 0 tfs (Pending Sys.empty).1)).2 = none ∧
    (Resolve fuel 0 v (registerAll (k+1) 0 tfs (Pending Sys.empty).1)).1.log =
      tfs.map (fun tf => Event.fulfillCalled tf.1 v) := by
  obtain ⟨f, rfl⟩ : ∃ f, fuel = f + 3 := ⟨fuel - 3, by omega⟩
  obtain ⟨hrp, hshlog, hshget, hshx, hopx, hoplog, hopget⟩ :=
    resolve_phases k (f+1) v tfs hres (by omega)
  have hst : ({ PromObj.mk0 .pending with
      handlers := (mkRegs 1 tfs).map thenHandler } : PromObj).state = .pending := rfl
  have hdec := Resolve_decompose (f+1) 0 v (registerAll (k+1) 0 tfs (Pending Sys.empty).1)
    { PromObj.mk0 .pending with handlers := (mkRegs 1 tfs).map thenHandler } hrp hst
  have hobjEq : ({ { PromObj.mk0 .pending with
      handlers := (mkRegs 1 tfs).map thenHandler } with
      state := PState.fulfilled, value := v } : PromObj) =
      ⟨.fulfilled, (mkRegs 1 tfs).map thenHandler, [], v, none⟩ := rfl
  rw [hobjEq] at hdec
  have hclear := clearPhase_known
    (operationPhase (f+1) 0 (handlerPhase (f+1) 0
      ((registerAll (k+1) 0 tfs (Pending Sys.empty).1).set 0
        ⟨.fulfilled, (mkRegs 1 tfs).map thenHandler, [], v, none⟩))) 0
    ⟨.fulfilled, (mkRegs 1 tfs).map thenHandler, (mkRegs 1 tfs).map (thenOp v), v, none⟩
    hopget
  constructor
  · rw [show f + 3 = (f+1) + 2 from rfl, hdec]
  · rw [show f + 3 = (f+1) + 2 from rfl, hdec]
    show (clearPhase 0 _).log = _
    rw [hclear, slog_set2, hoplog]

/-- Witness for `C3_registration_order` at two concrete handlers. -/
theorem C3_registration_order_witness :
    (Resolve 30 0 (.int 7) (registerAll 1 0
      [(5, fun x => (x, none)), (8, fun _ => (.str "a", none))] (Pending Sys.empty).1)).2 =
      none ∧
    (Resolve 30 0 (.int 7) (registerAll 1 0
      [(5, fun x => (x, none)), (8, fun _ => (.str "a", none))]
      (Pending Sys.empty).1)).1.log =
      [.fulfillCalled 5 (.int 7), .fulfillCalled 8 (.int 7)] := by
  have := C3_registration_order 0 30 (.int 7)
    [(5, fun x => (x, none)), (8, fun _ => (.str "a", none))]
    (by simp [Value.isProm]) (by norm_num)
  simpa using this

/-- Claim C10 (implicit): dispatch on settlement is two-phase.  `Resolve` on
a pending promise with `N` registered `Then` continuations is exactly the
handler loop followed by the operation loop (then list clearing); after the
handler loop every handler body has run to completion (all invocations are
logged, one settlement operation per handler is enqueued on the source)
while every derived promise is still unsettled; only the subsequent
operation loop settles the derived promises. -/
theorem C10_two_phase (k fuel : Nat) (v : Value)
    (tfs : List (Nat × (Value → Value × Option GoErr)))
    (hres : ∀ tf ∈ tfs, ((tf.2 v).1).isProm = false)
    (hfuel : 2 * tfs.length + 1 < fuel) :
    (Resolve (fuel+2) 0 v (registerAll (k+1) 0 tfs (Pending Sys.empty).1) =
      (clearPhase 0 (operationPhase fuel 0 (handlerPhase fuel 0
        ((registerAll (k+1) 0 tfs (Pending Sys.empty).1).set 0
          ⟨.fulfilled, (mkRegs 1 tfs).map thenHandler, [], v, none⟩))), none)) ∧
    (handlerPhase fuel 0 ((registerAll (k+1) 0 tfs (Pending Sys.empty).1).set 0
        ⟨.fulfilled, (mkRegs 1 tfs).map thenHandler, [], v, none⟩)).log =
      tfs.map (fun tf => Event.fulfillCalled tf.1 v) ∧
    (handlerPhase fuel 0 ((registerAll (k+1) 0 tfs (Pending Sys.empty).1).set 0
        ⟨.fulfilled, (mkRegs 1 tfs).map thenHandler, [], v, none⟩)).get 0 =
      some ⟨.fulfilled, (mkRegs 1 tfs).map thenHandler, (mkRegs 1 tfs).map (thenOp v),
        v, none⟩ ∧
    (∀ x ∈ mkRegs 1 tfs,
      (handlerPhase fuel 0 ((registerAll (k+1) 0 tfs (Pending Sys.empty).1).set 0
        ⟨.fulfilled, (mkRegs 1 tfs).map thenHandler, [], v, none⟩)).get x.2.2 =
      some (PromObj.mk0 .settling)) ∧
    (∀ x ∈ mkRegs 1 tfs,
      (operationPhase fuel 0 (handlerPhase fuel 0
        ((registerAll (k+1) 0 tfs (Pending Sys.empty).1).set 0
          ⟨.fulfilled, (mkRegs 1 tfs).map thenHandler, [], v, none⟩))).get x.2.2 =
      some (thenOp v x).settledObj) := by
  obtain ⟨hrp, hshlog, hshget, hshx, hopx, hoplog, hopget⟩ :=
    resolve_phases k fuel v tfs hres hfuel
  have hst : ({ PromObj.mk0 .pending with
      handlers := (mkRegs 1 tfs).map thenHandler } : PromObj).state = .pending := rfl
  have hdec := Resolve_decompose fuel 0 v (registerAll (k+1) 0 tfs (Pending Sys.empty).1)
    { PromObj.mk0 .pending with handlers := (mkRegs 1 tfs).map thenHandler } hrp hst
  have hobjEq : ({ { PromObj.mk0 .pending with
      handlers := (mkRegs 1 tfs).map thenHandler } with
      state := PState.fulfilled, value := v } : PromObj) =
      ⟨.fulfilled, (mkRegs 1 tfs).map thenHandler, [], v, none⟩ := rfl
  rw [hobjEq] at hdec
  exact ⟨hdec, hshlog, hshget, hshx, hopx⟩

/-- Witness for `C10_two_phase`: at two concrete handlers, after the handler
phase the first derived promise (index 1) is still unsettled. -/
theorem C10_two_phase_witness :
    (handlerPhase 10 0 ((registerAll 1 0
        [(5, fun x => (x, none)), (8, fun _ => (.str "a", none))] (Pending Sys.empty).1).set 0
        ⟨.fulfilled, (mkRegs 1 [((5 : Nat), fun x => (x, (none : Option GoErr))),
          (8, fun _ => (.str "a", none))]).map thenHandler, [], .int 7, none⟩)).get 1 =
      some (PromObj.mk0 .settling) := by
  have := C10_two_phase 0 10 (.int 7)
    [(5, fun x => (x, none)), (8, fun _ => (.str "a", none))]
    (by simp [Value.isProm]) (by norm_num)
  exact this.2.2.2.1 (5, fun x => (x, none), 1) (by simp [mkRegs])

/-! ### Claim C9: registration racing with settlement -/

/-- A two-thread configuration: one thread running `registerHandlers` (a
`Then` registration), one thread running the public `Resolve`, both against
promise `p`.  The program counters delimit the mutex-protected critical
sections of the code, which are the atomic units of the interleaving:
registration = (lock: allocate and append) · (rlock: read
`shouldCallHandlersImmediately`) · (lock: `notifyObservers`, when flagged);
settlement = (lock: check state, store value, set fulfilled) · (lock:
`notifyObservers`, when the check succeeded). -/
structure IState where
  sys : Sys
  regPc : Nat
  regFlag : Bool
  resPc : Nat
  resFlag : Bool

/-- One atomic step of the registering thread. -/
def stepReg (fuel p : Nat) (f : FulfillFn) (st : IState) : IState :=
  match st.regPc with
  | 0 => { st with sys := (registerAppendPhase p (some f) none none st.sys).1, regPc := 1 }
  | 1 =>
    let flag := match st.sys.get p with
      | some o => decide (o.state ≠ .pending ∧ o.state ≠ .settling)
      | none => false
    { st with regFlag := flag, regPc := 2 }
  | 2 =>
    { st with sys := if st.regFlag then notifyObservers fuel p st.sys else st.sys,
              regPc := 3 }
  | _ => st

/-- One atomic step of the resolving thread. -/
def stepRes (fuel p : Nat) (v : Value) (st : IState) : IState :=
  match st.resPc with
  | 0 =>
    match st.sys.get p with
    | some o =>
      if o.state = .pending then
        { st with sys := st.sys.set p { o with state := .fulfilled, value := v },
                  resFlag := true, resPc := 1 }
      else { st with resFlag := false, resPc := 1 }
    | none => { st with resFlag := false, resPc := 1 }
  | 1 =>
    { st with sys := if st.resFlag then notifyObservers fuel p st.sys else st.sys,
              resPc := 2 }
  | _ => st

/-- One scheduler step: the chosen thread moves if it still has work,
otherwise the other one does. -/
def stepI (fuel p : Nat) (f : FulfillFn) (v : Value) (b : Bool) (st : IState) : IState :=
  if b then
    if st.regPc < 3 then stepReg fuel p f st else stepRes fuel p v st
  else
    if st.resPc < 2 then stepRes fuel p v st else stepReg fuel p f st

def runI (fuel p : Nat) (f : FulfillFn) (v : Value) : List Bool → IState → IState
  | [], st => st
  | b :: bs, st => runI fuel p f v bs (stepI fuel p f v b st)

/-- The initial configuration: a fresh `Pending()` promise, both threads
about to start. -/
def initI : IState :=
  { sys := (Pending Sys.empty).1, regPc := 0, regFlag := false, resPc := 0, resFlag := false }

/-- Claim C9: every interleaving of a continuation registration with a
settlement (here a `Then` registration racing a `Resolve` on a fresh pending
promise, with the critical sections of the per-promise mutex as the atomic
units) leads to the handler being dispatched exactly once — the log holds
exactly one invocation — with the source fulfilled, the continuation list
drained, and the derived promise settled from the handler's result.  Five
scheduler choices cover all interleavings, since the two threads take at
most 3 and 2 atomic steps; no interleaving loses the continuation and none
dispatches it twice. -/
theorem C9_race_freedom :
    ∀ b0 b1 b2 b3 b4 : Bool,
      ((runI 10 0 (.user 0 (fun x => (x, none))) (.int 7)
        [b0, b1, b2, b3, b4] initI).sys.log = [.fulfillCalled 0 (.int 7)]) ∧
      (((runI 10 0 (.user 0 (fun x => (x, none))) (.int 7)
        [b0, b1, b2, b3, b4] initI).sys.get 0).map
          (fun o => (o.state, o.value, o.handlers.length, o.operations.length)) =
        some (.fulfilled, .int 7, 0, 0)) ∧
      (((runI 10 0 (.user 0 (fun x => (x, none))) (.int 7)
        [b0, b1, b2, b3, b4] initI).sys.get 1).map
          (fun o => (o.state, o.value)) = some (.fulfilled, .int 7)) := by
  decide

end GoPromise
